import Mathlib

/-!
# wasmjit driver (`src/wasmjit/main.c`)

A shallow embedding of the command-line driver: `load_file`, `init_pstate_user`
and `main`.  Calls that leave `main.c` (libc, the operating system, and the
wasmjit engine declared in the included headers) are represented by the values
they return, collected in environment records, and by trace events recording
that the call was made.  Pointers are natural numbers, `0` being `NULL`.
-/

namespace Wasmjit

/-! ## `load_file` -/

/-- The libc and system calls made by `load_file`, in the order they occur. -/
inductive SysCall
  | c_open (file_name : String)
  | c_fstat (fd : Int)
  | c_fdopen (fd : Int)
  | c_malloc (n : Nat)
  | c_fread (input : Nat) (n : Nat) (f : Nat)
  | c_free (input : Nat)
  | c_fclose (f : Nat)
  | c_close (fd : Int)
  deriving DecidableEq, Repr

/-- What the operating system and libc answer to the calls of one `load_file`
run: the descriptor from `open` (negative on failure), the return value of
`fstat` and the `st_size` it stores, the stream from `fdopen` (`0` is `NULL`),
the block from `malloc` (`0` is `NULL`) and the item count delivered by
`fread`. -/
structure FileSys where
  open_fd : Int
  fstat_ret : Int
  st_size : Nat
  fdopen_f : Nat
  malloc_p : Nat
  fread_n : Nat
  deriving DecidableEq, Repr

/-- The local variables of `load_file` together with the caller's `*size`
(`none` while nothing has been stored there) and the calls made so far. -/
structure LoadState where
  f : Nat
  input : Nat
  fd : Int
  size : Option Nat
  calls : List SysCall
  deriving DecidableEq, Repr

/-- Code from the label `success_exit` to the `return input`. -/
def success_exit (s : LoadState) : LoadState :=
  let s1 := if s.f ≠ 0 then { s with calls := s.calls ++ [SysCall.c_fclose s.f] } else s
  if s1.fd ≥ 0 then { s1 with calls := s1.calls ++ [SysCall.c_close s1.fd] } else s1

/-- Code from the label `error_exit`: the buffer is freed when it was
allocated, the variable `input` keeps its value, and control falls through to
`success_exit`. -/
def error_exit (s : LoadState) : LoadState :=
  success_exit
    (if s.input ≠ 0 then { s with calls := s.calls ++ [SysCall.c_free s.input] } else s)

/-- Embedding of `load_file(file_name, size)`.  The returned state holds the
returned pointer in `input`, the final content of `*size`, and the calls made. -/
def load_file (sys : FileSys) (file_name : String) : LoadState :=
  -- f = NULL; input = NULL; fd = -1;
  -- fd = open(file_name, O_RDONLY);
  let s0 : LoadState :=
    { f := 0, input := 0, fd := sys.open_fd, size := none,
      calls := [SysCall.c_open file_name] }
  if s0.fd < 0 then error_exit s0
  else
    -- ret = fstat(fd, &st);
    let s1 := { s0 with calls := s0.calls ++ [SysCall.c_fstat s0.fd] }
    if sys.fstat_ret < 0 then error_exit s1
    else
      -- f = fdopen(fd, "r");
      let s2 := { s1 with f := sys.fdopen_f, calls := s1.calls ++ [SysCall.c_fdopen s1.fd] }
      if s2.f = 0 then error_exit s2
      else
        -- fd = -1; *size = st.st_size; input = malloc(st.st_size);
        let s3 := { s2 with fd := -1, size := some sys.st_size, input := sys.malloc_p,
                            calls := s2.calls ++ [SysCall.c_malloc sys.st_size] }
        if s3.input = 0 then error_exit s3
        else
          -- rets = fread(input, sizeof(char), st.st_size, f);
          let s4 := { s3 with
            calls := s3.calls ++ [SysCall.c_fread s3.input sys.st_size s3.f] }
          if sys.fread_n ≠ sys.st_size then error_exit s4
          else success_exit s4

/-- The calls of a run that release the descriptor obtained from `open`:
`fclose` on the stream wrapping it, or `close` on the descriptor itself. -/
def releases (calls : List SysCall) : List SysCall :=
  calls.filter fun c =>
    match c with
    | SysCall.c_fclose _ => true
    | SysCall.c_close _ => true
    | _ => false

/-- Some step of `load_file` failed: `open`, `fstat`, `fdopen`, `malloc`, or
`fread` delivering fewer than `st_size` bytes. -/
def load_step_failed (sys : FileSys) : Prop :=
  sys.open_fd < 0 ∨ sys.fstat_ret < 0 ∨ sys.fdopen_f = 0 ∨ sys.malloc_p = 0 ∨
    sys.fread_n < sys.st_size

instance (sys : FileSys) : Decidable (load_step_failed sys) := by
  unfold load_step_failed; infer_instance

/-- The block `p` has been passed to `free` in the given run. -/
def freed (calls : List SysCall) (p : Nat) : Prop := SysCall.c_free p ∈ calls

instance (calls : List SysCall) (p : Nat) : Decidable (freed calls p) := by
  unfold freed; infer_instance

/-! ## `init_pstate_user` -/

/-- Result of `init_pstate_user`: its return value, the `(buf, size)` pair
handed to `init_pstate` when that call is made, and the calls of `load_file`. -/
structure InitResult where
  ret : Int
  passed : Option (Nat × Option Nat)
  calls : List SysCall
  deriving DecidableEq, Repr

/-- Embedding of `init_pstate_user(pstate, file_name)`.  `init_pstate` is
declared in `wasmjit/parse.h`; its return value for a given buffer and size
is the parameter `init_pstate`. -/
def init_pstate_user (sys : FileSys) (init_pstate : Nat → Option Nat → Int)
    (file_name : String) : InitResult :=
  let r := load_file sys file_name
  -- if (!buf) return 0;
  if r.input = 0 then { ret := 0, passed := none, calls := r.calls }
  else
    { ret := init_pstate r.input r.size, passed := some (r.input, r.size), calls := r.calls }

/-! ## The decoded module, as far as the driver reads it -/

/-- Modelled from the spec: the value types of the core instruction set
(`wasmjit_valtype_t` of `wasmjit/ast.h`, which is not part of the sources
at hand). -/
inductive Valtype
  | i32
  | i64
  | f32
  | f64
  deriving DecidableEq, Repr

/-- Modelled from the spec: the instructions of a code body (`struct Instr`
of `wasmjit/ast.h`, not part of the sources at hand).  Only straight-line
local, numeric and memory instructions of the 32-bit integer type are
represented. -/
inductive Instr
  | unreachable
  | nop
  | drop
  | local_get (idx : Nat)
  | local_set (idx : Nat)
  | i32_const (bits : Nat)
  | i32_add
  | i32_sub
  | i32_mul
  | i32_div_s
  | i32_load (offset : Nat)
  | i32_load8_u (offset : Nat)
  | i32_store (offset : Nat)
  | i32_store8 (offset : Nat)
  deriving DecidableEq, Repr

/-- Modelled from the spec: a declared function signature, ordered input value
types and ordered output value types (`struct TypeSectionType`; the length of
`input_types` is `n_inputs`, the length of `output_types` is
`FUNC_TYPE_N_OUTPUTS`). -/
structure TypeSectionType where
  input_types : List Valtype
  output_types : List Valtype
  deriving DecidableEq, Repr

/-- Modelled from the spec: one local declaration of a code body, a value
type with a count. -/
structure CodeSectionCodeLocal where
  count : Nat
  valtype : Valtype
  deriving DecidableEq, Repr

/-- Modelled from the spec: a code body, ordered local declarations
(`n_locals` of them) and an ordered instruction sequence (`n_instructions`). -/
structure CodeSectionCode where
  locals : List CodeSectionCodeLocal
  instructions : List Instr
  deriving DecidableEq, Repr

/-- Kind of an import or export (`IMPORT_DESC_TYPE_FUNC` and its siblings). -/
inductive DescType
  | IMPORT_DESC_TYPE_FUNC
  | IMPORT_DESC_TYPE_TABLE
  | IMPORT_DESC_TYPE_MEM
  | IMPORT_DESC_TYPE_GLOBAL
  deriving DecidableEq, Repr

/-- Modelled from the spec: an export declaration (item name, kind, index). -/
structure ExportSectionExport where
  name : String
  idx_type : DescType
  idx : Nat
  deriving DecidableEq, Repr

/-- Type section: the array `types`; `n_types` is its length. -/
structure TypeSection where
  types : List TypeSectionType
  deriving DecidableEq, Repr

/-- Function section: the array `typeidxs`; `n_typeidxs` is its length. -/
structure FunctionSection where
  typeidxs : List Nat
  deriving DecidableEq, Repr

/-- Export section: the array `exports`. -/
structure ExportSection where
  exports : List ExportSectionExport
  deriving DecidableEq, Repr

/-- Code section: the array `codes`; `n_codes` is its length. -/
structure CodeSection where
  codes : List CodeSectionCode
  deriving DecidableEq, Repr

/-- Declared number of types. -/
def TypeSection.n_types (s : TypeSection) : Nat := s.types.length

/-- Declared number of function declarations. -/
def FunctionSection.n_typeidxs (s : FunctionSection) : Nat := s.typeidxs.length

/-- Declared number of code bodies. -/
def CodeSection.n_codes (s : CodeSection) : Nat := s.codes.length

/-- Modelled from the spec: the decoded module (`struct Module` of
`wasmjit/ast.h`), restricted to the sections the driver and the claims refer
to.  Each count field of the C structure is the length of its array. -/
structure Module where
  type_section : TypeSection
  function_section : FunctionSection
  export_section : ExportSection
  code_section : CodeSection
  deriving DecidableEq, Repr

/-- A host module handed to the instantiator: its name and its instance
pointer (`struct NamedModule`). -/
structure NamedModule where
  name : String
  module : Nat
  deriving DecidableEq, Repr

/-! ## `main` -/

/-- What `main` does that is visible outside it: the calls of `load_file`, the
calls into the wasmjit engine with the value each returned, the messages
printed, the parts of the dump, and the evaluation of the function/code count
comparison. -/
inductive Event
  | sys (c : SysCall)
  | init_pstate (buf : Nat) (size : Option Nat) (ret : Int)
  | read_module (result : Option Module)
  | printf (msg : String)
  | dump_locals (i : Nat) (locals : List CodeSectionCodeLocal)
  | dump_signature (inputs outputs : List Valtype)
  | dump_instructions (instructions : List Instr)
  | count_check (n_codes n_typeidxs : Nat)
  | wasmjit_output_elf_relocatable (module : Module) (a_out size : Nat)
  | write (fd : Nat) (buf : Nat) (size : Nat)
  | wasmjit_instantiate_emscripten_runtime (modules : Option (List NamedModule))
  | wasmjit_instantiate (module : Module) (modules : List NamedModule) (module_inst : Nat)
  | wasmjit_get_export (module_inst : Nat) (name : String) (type : DescType) (ret : Nat)
  | wasmjit_emscripten_invoke_main (meminst stack_alloc_inst main_inst : Nat)
      (argc : Nat) (argv : List String) (ret : Int)
  deriving DecidableEq, Repr

/-- The parse state as far as the driver determines it: the buffer and size
handed to `init_pstate`, when that call was made. -/
abbrev ParseState := Option (Nat × Option Nat)

/-- Return values of everything `main` calls outside `main.c`.  `files` gives
the answers of the operating system for a path; `read_module` returns the
decoded module or `none` for the return value 0;
`wasmjit_output_elf_relocatable` returns the object and its size;
`wasmjit_instantiate_emscripten_runtime` returns the host modules or `none`
for `NULL`; pointers returned by the other functions are `0` for `NULL`. -/
structure Env where
  files : String → FileSys
  init_pstate : Nat → Option Nat → Int
  read_module : ParseState → Option Module
  wasmjit_output_elf_relocatable : Module → Nat × Nat
  wasmjit_instantiate_emscripten_runtime : Option (List NamedModule)
  wasmjit_instantiate : Module → List NamedModule → Nat
  wasmjit_get_export : Nat → String → DescType → Nat
  wasmjit_emscripten_invoke_main : Nat → Nat → Nat → Nat → List String → Int

/-- The command line as `getopt` presents it: `opts` are the successive return
values of `getopt(argc, argv, "do")` before it returns -1 (an unknown option is
reported as `?`), and `rest` is `argv[optind]` up to `argv[argc - 1]`. -/
structure Args where
  opts : List Char
  rest : List String
  deriving DecidableEq, Repr

/-- Outcome of a run of `main`: the value returned, or `none` when the run
read an array outside its declared bounds, after which C defines no behaviour;
and the events up to that point. -/
structure Run where
  ret : Option Int
  trace : List Event
  deriving DecidableEq, Repr

/-- The option loop of `main`: returns `dump_module` and `create_relocatable`,
or `none` when the `default:` case returns -1. -/
def parse_opts : List Char → Int → Int → Option (Int × Int)
  | [], dump_module, create_relocatable => some (dump_module, create_relocatable)
  | opt :: rest, dump_module, create_relocatable =>
    if opt = 'o' then parse_opts rest dump_module 1
    else if opt = 'd' then parse_opts rest 1 create_relocatable
    else none

/-- One iteration of the dump loop, for code body `i`.  The reads
`typeidxs[i]` and `types[typeidxs[i]]` are checked against the declared
counts; the second component is `false` when a read falls outside them. -/
def dump_code (m : Module) (i : Nat) : List Event × Bool :=
  match m.code_section.codes[i]? with
  | none => ([], false)
  | some code =>
    -- type = &module.type_section.types[module.function_section.typeidxs[i]];
    match m.function_section.typeidxs[i]? with
    | none => ([], false)
    | some typeidx =>
      let e1 := [Event.dump_locals i code.locals]
      -- type->n_inputs, type->input_types[j], FUNC_TYPE_OUTPUT_IDX(type, j)
      match m.type_section.types[typeidx]? with
      | none => (e1, false)
      | some type =>
        (e1 ++ [Event.dump_signature type.input_types type.output_types,
                Event.dump_instructions code.instructions], true)

/-- The dump loop `for (i = 0; i < n_codes; ++i)`, over the indices still to
visit.  It stops at the first out-of-bounds read. -/
def dump_loop (m : Module) : List Nat → List Event × Bool
  | [] => ([], true)
  | i :: rest =>
    match dump_code m i with
    | (evs, false) => (evs, false)
    | (evs, true) =>
      match dump_loop m rest with
      | (evs2, ok) => (evs ++ evs2, ok)

/-- The loop of `main` looking for the host module named `env`: the instance
pointer of the first module with that name, `0` when there is none. -/
def find_env : List NamedModule → Nat
  | [] => 0
  | nm :: rest => if nm.name = "env" then nm.module else find_env rest

/-- The event belongs to the dump of a code body. -/
def Event.is_dump : Event → Bool
  | Event.dump_locals _ _ => true
  | Event.dump_signature _ _ => true
  | Event.dump_instructions _ => true
  | _ => false

/-- The event is the evaluation of the function/code count comparison. -/
def Event.is_count_check : Event → Bool
  | Event.count_check _ _ => true
  | _ => false

/-- The event belongs to the emission of an object: the call of
`wasmjit_output_elf_relocatable` or the `write` of its result. -/
def Event.is_emit : Event → Bool
  | Event.wasmjit_output_elf_relocatable _ _ _ => true
  | Event.write _ _ _ => true
  | _ => false

/-- The event is a call of `wasmjit_instantiate`. -/
def Event.is_instantiate : Event → Bool
  | Event.wasmjit_instantiate _ _ _ => true
  | _ => false

/-- The event is an export lookup. -/
def Event.is_get_export : Event → Bool
  | Event.wasmjit_get_export _ _ _ _ => true
  | _ => false

/-- The event is the invocation of the entry point. -/
def Event.is_invoke : Event → Bool
  | Event.wasmjit_emscripten_invoke_main _ _ _ _ _ _ => true
  | _ => false

/-- The event uses the decoded module or something made from it. -/
def Event.uses_module (e : Event) : Bool :=
  e.is_dump || e.is_emit || e.is_instantiate || e.is_get_export || e.is_invoke

/-- Position of an event in the order of `main`: loading (0), decoding (1),
dump (2), count comparison (3), object emission (4), creation of the host
modules (5), instantiation (6), export lookup (7), invocation (8); a printed
message (9) ends the run that prints it. -/
def Event.stage : Event → Nat
  | Event.sys _ => 0
  | Event.init_pstate _ _ _ => 0
  | Event.read_module _ => 1
  | Event.dump_locals _ _ => 2
  | Event.dump_signature _ _ => 2
  | Event.dump_instructions _ => 2
  | Event.count_check _ _ => 3
  | Event.wasmjit_output_elf_relocatable _ _ _ => 4
  | Event.write _ _ _ => 4
  | Event.wasmjit_instantiate_emscripten_runtime _ => 5
  | Event.wasmjit_instantiate _ _ _ => 6
  | Event.wasmjit_get_export _ _ _ _ => 7
  | Event.wasmjit_emscripten_invoke_main _ _ _ _ _ _ => 8
  | Event.printf _ => 9

/-- In `trace`, the event `b` occurs and `a` occurs before its first
occurrence. -/
def before (a b : Event) (trace : List Event) : Prop :=
  a ∈ trace.takeWhile (fun e => e ≠ b) ∧ b ∈ trace

instance (a b : Event) (trace : List Event) : Decidable (before a b trace) := by
  unfold before; infer_instance

/-- The run `r` preceded by the events `pre`. -/
def Run.after (pre : List Event) (r : Run) : Run :=
  { ret := r.ret, trace := pre ++ r.trace }

/-- Lines 251 to 275 of `main`: the three export lookups and the invocation of
the entry point. -/
def main_lookup (env : Env) (args : Args) (module_inst env_module_inst : Nat) : Run :=
  let main_inst := env.wasmjit_get_export module_inst "_main" DescType.IMPORT_DESC_TYPE_FUNC
  Run.after
    [Event.wasmjit_get_export module_inst "_main" DescType.IMPORT_DESC_TYPE_FUNC main_inst]
    (if main_inst = 0 then
      { ret := some (-1), trace := [Event.printf "Couldn't find _main"] }
    else
      let stack_alloc_inst :=
        env.wasmjit_get_export module_inst "stackAlloc" DescType.IMPORT_DESC_TYPE_FUNC
      Run.after
        [Event.wasmjit_get_export module_inst "stackAlloc" DescType.IMPORT_DESC_TYPE_FUNC
          stack_alloc_inst]
        (if stack_alloc_inst = 0 then
          { ret := some (-1), trace := [Event.printf "Couldn't find stackAlloc"] }
        else
          let meminst :=
            env.wasmjit_get_export env_module_inst "memory" DescType.IMPORT_DESC_TYPE_MEM
          Run.after
            [Event.wasmjit_get_export env_module_inst "memory" DescType.IMPORT_DESC_TYPE_MEM
              meminst]
            (if meminst = 0 then
              { ret := some (-1), trace := [Event.printf "Couldn't find env.memory"] }
            else
              -- argc - optind, &argv[optind]
              let ret := env.wasmjit_emscripten_invoke_main meminst stack_alloc_inst main_inst
                args.rest.length args.rest
              { ret := some ret,
                trace := [Event.wasmjit_emscripten_invoke_main meminst stack_alloc_inst
                  main_inst args.rest.length args.rest ret] })))

/-- Lines 220 to 249 of `main`: the host modules are created, the one named
`env` is looked for, and the module is instantiated; then the lookups. -/
def main_execute (env : Env) (args : Args) (module : Module) : Run :=
  Run.after
    [Event.wasmjit_instantiate_emscripten_runtime env.wasmjit_instantiate_emscripten_runtime]
    (match env.wasmjit_instantiate_emscripten_runtime with
     | none => { ret := some (-1), trace := [] }
     | some modules =>
       let env_module_inst := find_env modules
       if env_module_inst = 0 then { ret := some (-1), trace := [] }
       else
         let module_inst := env.wasmjit_instantiate module modules
         Run.after [Event.wasmjit_instantiate module modules module_inst]
           (if module_inst = 0 then
             { ret := some (-1), trace := [Event.printf "Error instantiating module"] }
           else main_lookup env args module_inst env_module_inst))

/-- Lines 155 to 218 of `main`, entered with the decoded module: the dump, the
function/code count comparison and the object emission; then the execution. -/
def main_module (env : Env) (args : Args) (dump_module create_relocatable : Int)
    (module : Module) : Run :=
  if dump_module ≠ 0 then
    match dump_loop module (List.range module.code_section.n_codes) with
    | (evs, true) => { ret := some 0, trace := evs }
    | (evs, false) => { ret := none, trace := evs }
  else
    -- the most basic validation
    Run.after
      [Event.count_check module.code_section.n_codes module.function_section.n_typeidxs]
      (if module.code_section.n_codes ≠ module.function_section.n_typeidxs then
        { ret := some (-1), trace := [Event.printf "# Functions != # Codes"] }
      else if create_relocatable ≠ 0 then
        let a_out := env.wasmjit_output_elf_relocatable module
        { ret := some 0,
          trace := [Event.wasmjit_output_elf_relocatable module a_out.1 a_out.2,
                    Event.write 1 a_out.1 a_out.2] }
      else main_execute env args module)

/-- Embedding of `main`. -/
def main (env : Env) (args : Args) : Run :=
  match parse_opts args.opts 0 0 with
  | none => { ret := some (-1), trace := [] }
  | some (dump_module, create_relocatable) =>
    -- if (optind >= argc)
    match args.rest with
    | [] => { ret := some (-1), trace := [Event.printf "Need an input file"] }
    | file_name :: _ =>
      -- ret = init_pstate_user(&pstate, argv[optind]);
      let ir := init_pstate_user (env.files file_name) env.init_pstate file_name
      Run.after
        (ir.calls.map Event.sys ++
          (match ir.passed with
           | some (buf, size) => [Event.init_pstate buf size ir.ret]
           | none => []))
        (if ir.ret = 0 then
          { ret := some (-1), trace := [Event.printf "Error loading file"] }
        else
          -- ret = read_module(&pstate, &module, NULL, 0);
          Run.after [Event.read_module (env.read_module ir.passed)]
            (match env.read_module ir.passed with
             | none => { ret := some (-1), trace := [Event.printf "Error parsing module"] }
             | some module => main_module env args dump_module create_relocatable module))

/-! ## The engine behind the driver

The decoder, instantiator and interpreter are declared in the headers that
`main.c` includes; their code is not part of the sources at hand.  The
definitions of this section follow the specification instead. -/

/-- Modelled from the spec: a runtime value, tagged with its value type.  The
interpreter of `wasmjit/execute.h` is not part of the sources at hand.
Integers are held as bit patterns, so an `i32` is a natural number below
`2 ^ 32`. -/
inductive Value
  | i32 (bits : Nat)
  | i64 (bits : Nat)
  | f32 (bits : Nat)
  | f64 (bits : Nat)
  deriving DecidableEq, Repr

/-- Modelled from the spec: the value type a runtime value is tagged with. -/
def Value.valtype : Value → Valtype
  | Value.i32 _ => Valtype.i32
  | Value.i64 _ => Valtype.i64
  | Value.f32 _ => Valtype.f32
  | Value.f64 _ => Valtype.f64

/-- Modelled from the spec: the zero value of a declared local ("remaining
declared locals are zero-valued per their declared type"). -/
def zero_value : Valtype → Value
  | Valtype.i32 => Value.i32 0
  | Valtype.i64 => Value.i64 0
  | Valtype.f32 => Value.f32 0
  | Valtype.f64 => Value.f64 0

/-- Modelled from the spec: the bit pattern of a signed integer as an `i32`,
its residue modulo `2 ^ 32`. -/
def i32_of_int (a : Int) : Nat := (a % 2 ^ 32).toNat

/-- Modelled from the spec: an `i32` bit pattern read as a signed integer. -/
def i32_to_int (bits : Nat) : Int :=
  if bits < 2 ^ 31 then (bits : Int) else (bits : Int) - 2 ^ 32

/-- Modelled from the spec: the reason carried by a trap, for the
instructions represented here. -/
inductive TrapReason
  | unreachable
  | integer_divide_by_zero
  | integer_overflow
  | out_of_bounds_memory_access
  deriving DecidableEq, Repr

/-- Modelled from the spec: the terminal states of one call, `Returned` with
the output values and `Trapped` with a reason. -/
inductive Outcome
  | returned (values : List Value)
  | trapped (reason : TrapReason)
  deriving DecidableEq, Repr

/-- Modelled from the spec: a memory instance, a byte buffer with a maximum
page count.  Its current size in bytes is the length of `data`. -/
structure MemInst where
  data : List Nat
  max_pages : Nat
  deriving DecidableEq, Repr

/-- Current size of a memory in bytes. -/
def MemInst.size (mem : MemInst) : Nat := mem.data.length

/-- Modelled from the spec: "effective address as static offset plus runtime
base", computed in the natural numbers, so without wrapping. -/
def effective_address (offset base : Nat) : Nat := offset + base

/-- Modelled from the spec: read `width` bytes at the effective address; `none`
is the trap of an access whose effective address plus operand width exceeds
the current memory size. -/
def mem_load (mem : MemInst) (offset base width : Nat) : Option (List Nat) :=
  let ea := effective_address offset base
  if ea + width ≤ mem.size then some ((mem.data.drop ea).take width) else none

/-- Modelled from the spec: write the bytes `bs` at the effective address;
`none` is the trap of an out-of-bounds access, which leaves no new memory. -/
def mem_store (mem : MemInst) (offset base : Nat) (bs : List Nat) : Option MemInst :=
  let ea := effective_address offset base
  if ea + bs.length ≤ mem.size then
    some { mem with data := mem.data.take ea ++ bs ++ mem.data.drop (ea + bs.length) }
  else none

/-- The `width` low bytes of `n`, least significant first. -/
def bytes_le : Nat → Nat → List Nat
  | 0, _ => []
  | width + 1, n => n % 256 :: bytes_le width (n / 256)

/-- The number whose little-endian bytes are given. -/
def nat_of_bytes_le : List Nat → Nat
  | [] => 0
  | b :: bs => b % 256 + 256 * nat_of_bytes_le bs

/-- Modelled from the spec: the activation frame of a call, its local slots
and its operand stack (top first). -/
structure ActivationFrame where
  locals : List Value
  stack : List Value
  deriving DecidableEq, Repr

/-- Why execution of an instruction sequence stops early: a trap, or an
instruction that does not fit the operand stack or the locals, which
validation excludes and the specification leaves undefined. -/
inductive Stop
  | trap (reason : TrapReason)
  | ill_typed
  deriving DecidableEq, Repr

/-- Modelled from the spec: one instruction of the stack machine.  32-bit
arithmetic wraps modulo `2 ^ 32`; signed division traps on a zero divisor and
on the minimum value divided by -1; memory accesses trap out of bounds. -/
def step (instr : Instr) (fr : ActivationFrame) (mem : MemInst) :
    Except Stop (ActivationFrame × MemInst) :=
  match instr, fr.stack with
  | Instr.unreachable, _ => .error (Stop.trap TrapReason.unreachable)
  | Instr.nop, _ => .ok (fr, mem)
  | Instr.drop, _ :: rest => .ok ({ fr with stack := rest }, mem)
  | Instr.local_get idx, stack =>
    match fr.locals[idx]? with
    | some v => .ok ({ fr with stack := v :: stack }, mem)
    | none => .error Stop.ill_typed
  | Instr.local_set idx, v :: rest =>
    if idx < fr.locals.length then
      .ok ({ locals := fr.locals.set idx v, stack := rest }, mem)
    else .error Stop.ill_typed
  | Instr.i32_const bits, stack =>
    .ok ({ fr with stack := Value.i32 (bits % 2 ^ 32) :: stack }, mem)
  | Instr.i32_add, Value.i32 b :: Value.i32 a :: rest =>
    .ok ({ fr with stack := Value.i32 ((a + b) % 2 ^ 32) :: rest }, mem)
  | Instr.i32_sub, Value.i32 b :: Value.i32 a :: rest =>
    .ok ({ fr with stack := Value.i32 ((a + (2 ^ 32 - b % 2 ^ 32)) % 2 ^ 32) :: rest }, mem)
  | Instr.i32_mul, Value.i32 b :: Value.i32 a :: rest =>
    .ok ({ fr with stack := Value.i32 ((a * b) % 2 ^ 32) :: rest }, mem)
  | Instr.i32_div_s, Value.i32 b :: Value.i32 a :: rest =>
    if i32_to_int b = 0 then .error (Stop.trap TrapReason.integer_divide_by_zero)
    else if i32_to_int a = -(2 ^ 31) ∧ i32_to_int b = -1 then
      .error (Stop.trap TrapReason.integer_overflow)
    else
      .ok ({ fr with
             stack := Value.i32 (i32_of_int (Int.tdiv (i32_to_int a) (i32_to_int b))) :: rest },
           mem)
  | Instr.i32_load offset, Value.i32 base :: rest =>
    match mem_load mem offset base 4 with
    | some bs => .ok ({ fr with stack := Value.i32 (nat_of_bytes_le bs) :: rest }, mem)
    | none => .error (Stop.trap TrapReason.out_of_bounds_memory_access)
  | Instr.i32_load8_u offset, Value.i32 base :: rest =>
    match mem_load mem offset base 1 with
    | some bs => .ok ({ fr with stack := Value.i32 (nat_of_bytes_le bs) :: rest }, mem)
    | none => .error (Stop.trap TrapReason.out_of_bounds_memory_access)
  | Instr.i32_store offset, Value.i32 v :: Value.i32 base :: rest =>
    match mem_store mem offset base (bytes_le 4 v) with
    | some mem2 => .ok ({ fr with stack := rest }, mem2)
    | none => .error (Stop.trap TrapReason.out_of_bounds_memory_access)
  | Instr.i32_store8 offset, Value.i32 v :: Value.i32 base :: rest =>
    match mem_store mem offset base (bytes_le 1 v) with
    | some mem2 => .ok ({ fr with stack := rest }, mem2)
    | none => .error (Stop.trap TrapReason.out_of_bounds_memory_access)
  | _, _ => .error Stop.ill_typed

/-- Modelled from the spec: run an instruction sequence to its end or to the
first trap. -/
def exec : List Instr → ActivationFrame → MemInst → Except Stop (ActivationFrame × MemInst)
  | [], fr, mem => .ok (fr, mem)
  | instr :: rest, fr, mem =>
    match step instr fr mem with
    | .ok (fr2, mem2) => exec rest fr2 mem2
    | .error e => .error e

/-- Modelled from the spec: an entry of an instance's resolved function table
that closes over a module's code, with its signature. -/
structure FuncInst where
  type : TypeSectionType
  code : CodeSectionCode
  deriving DecidableEq, Repr

/-- Modelled from the spec: an instance, with its functions, its one memory
and its export map from names to kind and index. -/
structure Instance where
  funcs : List FuncInst
  mem : MemInst
  exports : List ExportSectionExport
  deriving DecidableEq, Repr

/-- Pair each function declaration with its code body and its declared
signature; `none` when a type index is out of bounds or the two sections
differ in length. -/
def link_funcs (types : List TypeSectionType) :
    List Nat → List CodeSectionCode → Option (List FuncInst)
  | [], [] => some []
  | typeidx :: typeidxs, code :: codes =>
    match types[typeidx]?, link_funcs types typeidxs codes with
    | some type, some funcs => some ({ type := type, code := code } :: funcs)
    | _, _ => none
  | _, _ => none

/-- Modelled from the spec: instantiation of a module that declares no
imports, memory, globals, segments or start function; the instance gets an
empty memory. -/
def instantiate (m : Module) : Option Instance :=
  match link_funcs m.type_section.types m.function_section.typeidxs m.code_section.codes with
  | some funcs =>
    some { funcs := funcs, mem := { data := [], max_pages := 0 },
           exports := m.export_section.exports }
  | none => none

/-- Modelled from the spec: the export lookup interface, "given a name and
expected kind, returns the matching handle or not found". -/
def Instance.get_export (inst : Instance) (name : String) (kind : DescType) : Option Nat :=
  match inst.exports.find? (fun e => e.name = name ∧ e.idx_type = kind) with
  | some e => some e.idx
  | none => none

/-- The zero-valued slots of a list of local declarations. -/
def zero_locals : List CodeSectionCodeLocal → List Value
  | [] => []
  | l :: rest => List.replicate l.count (zero_value l.valtype) ++ zero_locals rest

/-- Modelled from the spec: a call of function `f` of an instance.  The
parameters fill the first local slots, the declared locals are zero, the
operand stack starts empty; the outputs are the top of the final operand
stack.  `none` when `f` is no function of the instance, the arguments do not
match its input types, or its body is ill typed. -/
def invoke (inst : Instance) (f : Nat) (args : List Value) : Option Outcome :=
  match inst.funcs[f]? with
  | none => none
  | some func =>
    if args.map Value.valtype ≠ func.type.input_types then none
    else
      let fr : ActivationFrame :=
        { locals := args ++ zero_locals func.code.locals, stack := [] }
      match exec func.code.instructions fr inst.mem with
      | .error (Stop.trap reason) => some (Outcome.trapped reason)
      | .error Stop.ill_typed => none
      | .ok (fr2, _) =>
        let n := func.type.output_types.length
        let outs := (fr2.stack.take n).reverse
        if outs.map Value.valtype = func.type.output_types then
          some (Outcome.returned outs)
        else none

/-- Instantiate a module and invoke the function it exports under `name`. -/
def call_export (m : Module) (name : String) (args : List Value) : Option Outcome :=
  match instantiate m with
  | none => none
  | some inst =>
    match inst.get_export name DescType.IMPORT_DESC_TYPE_FUNC with
    | none => none
    | some f => invoke inst f args

/-- A module exporting `add(i32, i32) -> i32`, whose body returns the sum of
its two parameters. -/
def add_module : Module :=
  { type_section :=
      { types := [{ input_types := [Valtype.i32, Valtype.i32],
                    output_types := [Valtype.i32] }] },
    function_section := { typeidxs := [0] },
    export_section :=
      { exports := [{ name := "add", idx_type := DescType.IMPORT_DESC_TYPE_FUNC, idx := 0 }] },
    code_section :=
      { codes := [{ locals := [],
                    instructions := [Instr.local_get 0, Instr.local_get 1, Instr.i32_add] }] } }

/-! ## Concrete inputs -/

/-- A file of 14 bytes that is opened, measured, allocated and read in full. -/
def good_sys : FileSys :=
  { open_fd := 3, fstat_ret := 0, st_size := 14, fdopen_f := 7, malloc_p := 1000,
    fread_n := 14 }

/-- A path whose `st_size` is 4096 but from which `fread` delivers nothing, as
for a directory: every call before `fread` succeeds. -/
def short_read_sys : FileSys :=
  { open_fd := 3, fstat_ret := 0, st_size := 4096, fdopen_f := 7, malloc_p := 1000,
    fread_n := 0 }

/-- A module with one code body and an empty function section. -/
def codes_without_functions : Module :=
  { type_section := { types := [] },
    function_section := { typeidxs := [] },
    export_section := { exports := [] },
    code_section := { codes := [{ locals := [], instructions := [] }] } }

/-- A module with one code body whose function declaration names type 5 of an
empty type section. -/
def type_index_out_of_range : Module :=
  { type_section := { types := [] },
    function_section := { typeidxs := [5] },
    export_section := { exports := [] },
    code_section := { codes := [{ locals := [], instructions := [] }] } }

/-- An environment in which the file loads, `read_module` returns `result`,
the host modules are `modules`, instantiation returns `module_inst` and every
export lookup is answered by `lookup`. -/
def demo_env (result : Option Module) (modules : Option (List NamedModule))
    (module_inst : Nat) (lookup : Nat → String → DescType → Nat) : Env :=
  { files := fun _ => good_sys,
    init_pstate := fun _ _ => 1,
    read_module := fun _ => result,
    wasmjit_output_elf_relocatable := fun _ => (2000, 64),
    wasmjit_instantiate_emscripten_runtime := modules,
    wasmjit_instantiate := fun _ _ => module_inst,
    wasmjit_get_export := lookup,
    wasmjit_emscripten_invoke_main := fun _ _ _ _ _ => 0 }

/-- The host modules of the examples: one module named `env` at address 50. -/
def demo_modules : List NamedModule := [{ name := "env", module := 50 }]

/-- The command line `wasmjit a.wasm`. -/
def demo_args : Args := { opts := [], rest := ["a.wasm"] }

/-- A memory of eight bytes. -/
def demo_mem : MemInst := { data := [1, 2, 3, 4, 5, 6, 7, 8], max_pages := 1 }

/-! ## Properties of the driver: events and paths -/

@[simp] theorem Run.after_trace (pre : List Event) (r : Run) :
    (Run.after pre r).trace = pre ++ r.trace := rfl

@[simp] theorem Run.after_ret (pre : List Event) (r : Run) :
    (Run.after pre r).ret = r.ret := rfl

/-- Events different from `b` at the head of a trace are all kept by the scan
for the first occurrence of `b`. -/
theorem takeWhile_append_of_not_mem (b : Event) (pre t : List Event) (h : b ∉ pre) :
    (pre ++ t).takeWhile (fun e => e ≠ b) = pre ++ t.takeWhile (fun e => e ≠ b) := by
  induction pre with
  | nil => rfl
  | cons x xs ih =>
    have hx : x ≠ b := fun hxb => h (by simp [hxb])
    have hxs : b ∉ xs := fun hm => h (by simp [hm])
    have ih2 := ih hxs
    simp only [List.cons_append]
    rw [List.takeWhile_cons_of_pos (by simpa using hx), ih2]

/-- Precedence survives a prefix that does not contain the later event. -/
theorem before_append (a b : Event) (pre t : List Event)
    (h : before a b t) (hn : b ∉ pre) : before a b (pre ++ t) := by
  unfold before at *
  rw [takeWhile_append_of_not_mem b pre t hn]
  exact ⟨List.mem_append_right _ h.1, List.mem_append_right _ h.2⟩

/-- The lookup block produces lookups, the invocation and messages only. -/
theorem main_lookup_stage (env : Env) (args : Args) (module_inst env_module_inst : Nat)
    (e : Event) (h : e ∈ (main_lookup env args module_inst env_module_inst).trace) :
    7 ≤ e.stage := by
  unfold main_lookup at h
  simp only [Run.after_trace] at h
  split_ifs at h <;> simp at h <;> rcases h with rfl | rfl | rfl | rfl <;> simp [Event.stage]

/-- One iteration of the dump produces dump events only. -/
theorem dump_code_is_dump (m : Module) (i : Nat) (e : Event)
    (h : e ∈ (dump_code m i).1) : e.is_dump = true := by
  unfold dump_code at h
  split at h
  · simp at h
  · split at h
    · simp at h
    · split at h
      · simp at h; subst h; rfl
      · simp at h
        rcases h with h | h | h <;> subst h <;> rfl

/-- The dump loop produces dump events only. -/
theorem dump_loop_is_dump (m : Module) (l : List Nat) (e : Event)
    (h : e ∈ (dump_loop m l).1) : e.is_dump = true := by
  induction l with
  | nil => simp [dump_loop] at h
  | cons i rest ih =>
    unfold dump_loop at h
    split at h
    · rename_i evs hc
      apply dump_code_is_dump m i
      rw [hc]; exact h
    · rename_i evs hc
      split at h
      rename_i evs2 ok hl
      simp at h
      rcases h with h | h
      · apply dump_code_is_dump m i
        rw [hc]; exact h
      · apply ih
        rw [hl]; exact h

/-- The events of loading have stage 0. -/
theorem load_events_stage (ir : InitResult) (e : Event)
    (h : e ∈ ir.calls.map Event.sys ++
      (match ir.passed with
       | some (buf, size) => [Event.init_pstate buf size ir.ret]
       | none => [])) : e.stage = 0 := by
  simp only [List.mem_append, List.mem_map] at h
  rcases h with ⟨c, _, rfl⟩ | h
  · rfl
  · split at h
    · simp at h; subst h; rfl
    · simp at h

/-- The instantiation block produces no event of an earlier stage. -/
theorem main_execute_stage (env : Env) (args : Args) (module : Module)
    (e : Event) (h : e ∈ (main_execute env args module).trace) : 5 ≤ e.stage := by
  unfold main_execute at h
  simp only [Run.after_trace] at h
  split at h
  · simp at h; subst h; simp [Event.stage]
  · split_ifs at h
    · simp at h; subst h; simp [Event.stage]
    · simp at h; rcases h with rfl | rfl | rfl <;> simp [Event.stage]
    · simp at h
      rcases h with rfl | rfl | h
      · simp [Event.stage]
      · simp [Event.stage]
      · have := main_lookup_stage env args _ _ e h
        omega

/-- The four ways through the lookups of `main`. -/
theorem main_lookup_cases (env : Env) (args : Args) (module_inst env_module_inst : Nat) :
    let FUNC := DescType.IMPORT_DESC_TYPE_FUNC
    let MEM := DescType.IMPORT_DESC_TYPE_MEM
    let look := main_lookup env args module_inst env_module_inst
    (∃ s, look = { ret := some (-1), trace :=
        [Event.wasmjit_get_export module_inst "_main" FUNC 0, Event.printf s] }) ∨
    (∃ s main_inst, main_inst ≠ 0 ∧ look = { ret := some (-1), trace :=
        [Event.wasmjit_get_export module_inst "_main" FUNC main_inst,
         Event.wasmjit_get_export module_inst "stackAlloc" FUNC 0, Event.printf s] }) ∨
    (∃ s main_inst stack_alloc_inst, main_inst ≠ 0 ∧ stack_alloc_inst ≠ 0 ∧
      look = { ret := some (-1), trace :=
        [Event.wasmjit_get_export module_inst "_main" FUNC main_inst,
         Event.wasmjit_get_export module_inst "stackAlloc" FUNC stack_alloc_inst,
         Event.wasmjit_get_export env_module_inst "memory" MEM 0, Event.printf s] }) ∨
    (∃ main_inst stack_alloc_inst meminst ret,
      main_inst ≠ 0 ∧ stack_alloc_inst ≠ 0 ∧ meminst ≠ 0 ∧
      look = { ret := some ret, trace :=
        [Event.wasmjit_get_export module_inst "_main" FUNC main_inst,
         Event.wasmjit_get_export module_inst "stackAlloc" FUNC stack_alloc_inst,
         Event.wasmjit_get_export env_module_inst "memory" MEM meminst,
         Event.wasmjit_emscripten_invoke_main meminst stack_alloc_inst main_inst
           args.rest.length args.rest ret] }) := by
  intro FUNC MEM look
  by_cases h1 : env.wasmjit_get_export module_inst "_main" FUNC = 0
  · left
    exact ⟨_, by simp [look, main_lookup, Run.after, FUNC, h1]; rfl⟩
  · by_cases h2 : env.wasmjit_get_export module_inst "stackAlloc" FUNC = 0
    · right; left
      exact ⟨_, _, h1, by simp [look, main_lookup, Run.after, FUNC, h1, h2]; rfl⟩
    · by_cases h3 : env.wasmjit_get_export env_module_inst "memory" MEM = 0
      · right; right; left
        exact ⟨_, _, _, h1, h2,
          by simp [look, main_lookup, Run.after, FUNC, MEM, h1, h2, h3]; rfl⟩
      · right; right; right
        exact ⟨_, _, _, _, h1, h2, h3,
          by simp [look, main_lookup, Run.after, FUNC, MEM, h1, h2, h3]; rfl⟩

/-- The four ways through the instantiation block of `main`. -/
theorem main_execute_cases (env : Env) (args : Args) (module : Module) :
    let exe := main_execute env args module
    (exe = { ret := some (-1), trace := [Event.wasmjit_instantiate_emscripten_runtime none] }) ∨
    (∃ modules, find_env modules = 0 ∧ exe = { ret := some (-1), trace :=
        [Event.wasmjit_instantiate_emscripten_runtime (some modules)] }) ∨
    (∃ modules s, find_env modules ≠ 0 ∧ exe = { ret := some (-1), trace :=
        [Event.wasmjit_instantiate_emscripten_runtime (some modules),
         Event.wasmjit_instantiate module modules 0, Event.printf s] }) ∨
    (∃ modules module_inst, find_env modules ≠ 0 ∧ module_inst ≠ 0 ∧
      exe = Run.after
        [Event.wasmjit_instantiate_emscripten_runtime (some modules),
         Event.wasmjit_instantiate module modules module_inst]
        (main_lookup env args module_inst (find_env modules))) := by
  intro exe
  cases hr : env.wasmjit_instantiate_emscripten_runtime with
  | none =>
    left
    simp [exe, main_execute, Run.after, hr]
  | some modules =>
    by_cases h1 : find_env modules = 0
    · right; left
      exact ⟨modules, h1, by simp [exe, main_execute, Run.after, hr, h1]⟩
    · by_cases h2 : env.wasmjit_instantiate module modules = 0
      · right; right; left
        exact ⟨modules, _, h1, by simp [exe, main_execute, Run.after, hr, h1, h2]; rfl⟩
      · right; right; right
        exact ⟨modules, _, h1, h2, by simp [exe, main_execute, Run.after, hr, h1, h2]⟩

/-- The four ways through `main` once the module is decoded. -/
theorem main_module_cases (env : Env) (args : Args) (dump_module create_relocatable : Int)
    (module : Module) :
    (dump_module ≠ 0 ∧
      ∃ evs ok, dump_loop module (List.range module.code_section.n_codes) = (evs, ok) ∧
        main_module env args dump_module create_relocatable module =
          { ret := if ok then some 0 else none, trace := evs }) ∨
    (dump_module = 0 ∧ module.code_section.n_codes ≠ module.function_section.n_typeidxs ∧
      ∃ s, main_module env args dump_module create_relocatable module =
        { ret := some (-1), trace :=
          [Event.count_check module.code_section.n_codes module.function_section.n_typeidxs,
           Event.printf s] }) ∨
    (dump_module = 0 ∧ module.code_section.n_codes = module.function_section.n_typeidxs ∧
      create_relocatable ≠ 0 ∧
      ∃ a_out size, main_module env args dump_module create_relocatable module =
        { ret := some 0, trace :=
          [Event.count_check module.code_section.n_codes module.function_section.n_typeidxs,
           Event.wasmjit_output_elf_relocatable module a_out size,
           Event.write 1 a_out size] }) ∨
    (dump_module = 0 ∧ module.code_section.n_codes = module.function_section.n_typeidxs ∧
      create_relocatable = 0 ∧
      main_module env args dump_module create_relocatable module =
        Run.after
          [Event.count_check module.code_section.n_codes module.function_section.n_typeidxs]
          (main_execute env args module)) := by
  by_cases hd : dump_module = 0
  · by_cases hc : module.code_section.n_codes = module.function_section.n_typeidxs
    · by_cases ho : create_relocatable = 0
      · right; right; right
        refine ⟨hd, hc, ho, ?_⟩
        simp [main_module, hd, ho, hc]
      · right; right; left
        refine ⟨hd, hc, ho, (env.wasmjit_output_elf_relocatable module).1,
          (env.wasmjit_output_elf_relocatable module).2, ?_⟩
        simp only [main_module]
        simp [hd, ho, hc, Run.after]
    · right; left
      refine ⟨hd, hc, "# Functions != # Codes", ?_⟩
      simp only [main_module]
      simp [hd, hc, Run.after]
  · left
    refine ⟨hd, ?_⟩
    cases hl : dump_loop module (List.range module.code_section.n_codes) with
    | mk evs ok =>
      refine ⟨evs, ok, rfl, ?_⟩
      simp only [main_module]
      cases ok <;> simp [hd, hl]

/-- A run of `main` either ends with -1 before a module is decoded, or decodes a
module and continues with it. -/
theorem main_cases (env : Env) (args : Args) :
    (∃ pre tail, (∀ e ∈ pre, e.stage = 0) ∧
      (tail = [] ∨ (∃ s, tail = [Event.printf s]) ∨
        ∃ s, tail = [Event.read_module none, Event.printf s]) ∧
      main env args = { ret := some (-1), trace := pre ++ tail }) ∨
    (∃ pre dump_module create_relocatable module, (∀ e ∈ pre, e.stage = 0) ∧
      parse_opts args.opts 0 0 = some (dump_module, create_relocatable) ∧
      main env args = Run.after (pre ++ [Event.read_module (some module)])
        (main_module env args dump_module create_relocatable module)) := by
  cases hp : parse_opts args.opts 0 0 with
  | none =>
    left
    exact ⟨[], [], by simp, Or.inl rfl, by simp [main, hp]⟩
  | some flags =>
    obtain ⟨dump_module, create_relocatable⟩ := flags
    cases hrest : args.rest with
    | nil =>
      left
      exact ⟨[], [Event.printf "Need an input file"], by simp, Or.inr (Or.inl ⟨_, rfl⟩),
        by simp [main, hp, hrest]⟩
    | cons file_name tl =>
      have hpre := load_events_stage
        (init_pstate_user (env.files file_name) env.init_pstate file_name)
      by_cases hret : (init_pstate_user (env.files file_name) env.init_pstate file_name).ret = 0
      · left
        exact ⟨_, _, hpre, Or.inr (Or.inl ⟨_, rfl⟩),
          by simp [main, hp, hrest, hret, Run.after]; rfl⟩
      · cases hm : env.read_module
            (init_pstate_user (env.files file_name) env.init_pstate file_name).passed with
        | none =>
          left
          exact ⟨_, _, hpre, Or.inr (Or.inr ⟨_, rfl⟩),
            by simp [main, hp, hrest, hret, hm, Run.after]; rfl⟩
        | some module =>
          right
          exact ⟨_, dump_module, create_relocatable, module, hpre, rfl,
            by simp [main, hp, hrest, hret, hm, Run.after]⟩

/-- Every run of `main`, by the path taken: the loading events `pre`, then one
of the fourteen ways to the `return`. -/
theorem main_paths (env : Env) (args : Args) :
    ∃ pre, (∀ e ∈ pre, e.stage = 0) ∧
    ((∃ tail, (tail = [] ∨ (∃ s, tail = [Event.printf s]) ∨
        ∃ s, tail = [Event.read_module none, Event.printf s]) ∧
      main env args = { ret := some (-1), trace := pre ++ tail }) ∨
    ∃ dump_module create_relocatable module,
      parse_opts args.opts 0 0 = some (dump_module, create_relocatable) ∧
      ((dump_module ≠ 0 ∧
        ∃ evs ok, dump_loop module (List.range module.code_section.n_codes) = (evs, ok) ∧
          main env args = { ret := if ok then some 0 else none,
                            trace := pre ++ Event.read_module (some module) :: evs }) ∨
      (dump_module = 0 ∧
        module.code_section.n_codes ≠ module.function_section.n_typeidxs ∧
        ∃ s, main env args = { ret := some (-1), trace := pre ++
          [Event.read_module (some module),
           Event.count_check module.code_section.n_codes module.function_section.n_typeidxs,
           Event.printf s] }) ∨
      (dump_module = 0 ∧
        module.code_section.n_codes = module.function_section.n_typeidxs ∧
        create_relocatable ≠ 0 ∧
        ∃ a_out size, main env args = { ret := some 0, trace := pre ++
          [Event.read_module (some module),
           Event.count_check module.code_section.n_codes module.function_section.n_typeidxs,
           Event.wasmjit_output_elf_relocatable module a_out size,
           Event.write 1 a_out size] }) ∨
      (dump_module = 0 ∧
        module.code_section.n_codes = module.function_section.n_typeidxs ∧
        create_relocatable = 0 ∧
        ∃ r, main_execute env args module = r ∧
          main env args = { ret := r.ret, trace := pre ++
            Event.read_module (some module) ::
            Event.count_check module.code_section.n_codes module.function_section.n_typeidxs ::
            r.trace }))) := by
  rcases main_cases env args with ⟨pre, tail, hpre, ht, hm⟩ | ⟨pre, d, o, m, hpre, hp, hm⟩
  · exact ⟨pre, hpre, Or.inl ⟨tail, ht, hm⟩⟩
  · refine ⟨pre, hpre, Or.inr ⟨d, o, m, hp, ?_⟩⟩
    rcases main_module_cases env args d o m with
      ⟨hd, evs, ok, hl, hr⟩ | ⟨hd, hc, s, hr⟩ | ⟨hd, hc, ho, a, sz, hr⟩ | ⟨hd, hc, ho, hr⟩
    · left
      exact ⟨hd, evs, ok, hl, by rw [hm, hr]; simp [Run.after]⟩
    · right; left
      exact ⟨hd, hc, s, by rw [hm, hr]; simp [Run.after]⟩
    · right; right; left
      exact ⟨hd, hc, ho, a, sz, by rw [hm, hr]; simp [Run.after]⟩
    · right; right; right
      exact ⟨hd, hc, ho, _, rfl, by rw [hm, hr]; simp [Run.after]⟩

/-- The runs of the instantiation block of `main`, by the path taken. -/
theorem main_execute_paths (env : Env) (args : Args) (module : Module) :
    (main_execute env args module =
      { ret := some (-1), trace := [Event.wasmjit_instantiate_emscripten_runtime none] }) ∨
    (∃ modules, find_env modules = 0 ∧ main_execute env args module =
      { ret := some (-1),
        trace := [Event.wasmjit_instantiate_emscripten_runtime (some modules)] }) ∨
    (∃ modules s, find_env modules ≠ 0 ∧ main_execute env args module =
      { ret := some (-1), trace :=
        [Event.wasmjit_instantiate_emscripten_runtime (some modules),
         Event.wasmjit_instantiate module modules 0, Event.printf s] }) ∨
    (∃ modules module_inst tail ret, find_env modules ≠ 0 ∧ module_inst ≠ 0 ∧
      main_execute env args module =
        { ret := ret, trace :=
          Event.wasmjit_instantiate_emscripten_runtime (some modules) ::
          Event.wasmjit_instantiate module modules module_inst :: tail } ∧
      ((∃ s, ret = some (-1) ∧ tail =
          [Event.wasmjit_get_export module_inst "_main" DescType.IMPORT_DESC_TYPE_FUNC 0,
           Event.printf s]) ∨
       (∃ s main_inst, main_inst ≠ 0 ∧ ret = some (-1) ∧ tail =
          [Event.wasmjit_get_export module_inst "_main" DescType.IMPORT_DESC_TYPE_FUNC main_inst,
           Event.wasmjit_get_export module_inst "stackAlloc" DescType.IMPORT_DESC_TYPE_FUNC 0,
           Event.printf s]) ∨
       (∃ s main_inst stack_alloc_inst, main_inst ≠ 0 ∧ stack_alloc_inst ≠ 0 ∧
          ret = some (-1) ∧ tail =
          [Event.wasmjit_get_export module_inst "_main" DescType.IMPORT_DESC_TYPE_FUNC main_inst,
           Event.wasmjit_get_export module_inst "stackAlloc" DescType.IMPORT_DESC_TYPE_FUNC
             stack_alloc_inst,
           Event.wasmjit_get_export (find_env modules) "memory" DescType.IMPORT_DESC_TYPE_MEM 0,
           Event.printf s]) ∨
       (∃ main_inst stack_alloc_inst meminst r,
          main_inst ≠ 0 ∧ stack_alloc_inst ≠ 0 ∧ meminst ≠ 0 ∧ ret = some r ∧ tail =
          [Event.wasmjit_get_export module_inst "_main" DescType.IMPORT_DESC_TYPE_FUNC main_inst,
           Event.wasmjit_get_export module_inst "stackAlloc" DescType.IMPORT_DESC_TYPE_FUNC
             stack_alloc_inst,
           Event.wasmjit_get_export (find_env modules) "memory" DescType.IMPORT_DESC_TYPE_MEM
             meminst,
           Event.wasmjit_emscripten_invoke_main meminst stack_alloc_inst main_inst
             args.rest.length args.rest r]))) := by
  rcases main_execute_cases env args module with
    h | ⟨ms, he, h⟩ | ⟨ms, s, he, h⟩ | ⟨ms, inst, he, hi, h⟩
  · exact Or.inl h
  · exact Or.inr (Or.inl ⟨ms, he, h⟩)
  · exact Or.inr (Or.inr (Or.inl ⟨ms, s, he, h⟩))
  · right; right; right
    rcases main_lookup_cases env args inst (find_env ms) with
      ⟨s, hl⟩ | ⟨s, mi, h1, hl⟩ | ⟨s, mi, sa, h1, h2, hl⟩ | ⟨mi, sa, mem, r, h1, h2, h3, hl⟩
    · exact ⟨ms, inst, _, _, he, hi, by rw [h, hl]; simp [Run.after],
        Or.inl ⟨s, rfl, rfl⟩⟩
    · exact ⟨ms, inst, _, _, he, hi, by rw [h, hl]; simp [Run.after],
        Or.inr (Or.inl ⟨s, mi, h1, rfl, rfl⟩)⟩
    · exact ⟨ms, inst, _, _, he, hi, by rw [h, hl]; simp [Run.after],
        Or.inr (Or.inr (Or.inl ⟨s, mi, sa, h1, h2, rfl, rfl⟩))⟩
    · exact ⟨ms, inst, _, _, he, hi, by rw [h, hl]; simp [Run.after],
        Or.inr (Or.inr (Or.inr ⟨mi, sa, mem, r, h1, h2, h3, rfl, rfl⟩))⟩

/-- An event of a later stage is not among the loading events. -/
theorem not_mem_of_stage_zero (pre : List Event) (hpre : ∀ e ∈ pre, e.stage = 0)
    (e : Event) (hs : e.stage ≠ 0) : e ∉ pre :=
  fun h => hs (hpre e h)

/-- The events that use the module lie in the stages 2, 4, 6, 7 and 8. -/
theorem uses_module_stage (e : Event) (h : e.uses_module = true) :
    2 ≤ e.stage ∧ e.stage ≤ 8 ∧ e.stage ≠ 3 ∧ e.stage ≠ 5 := by
  cases e <;> simp [Event.uses_module, Event.is_dump, Event.is_emit, Event.is_instantiate,
    Event.is_get_export, Event.is_invoke] at h <;> simp [Event.stage]

/-- Loading, decoding, the count comparison, the creation of the host modules
and messages do not use the module. -/
theorem uses_module_false_of_stage (e : Event)
    (h : e.stage < 2 ∨ e.stage = 9 ∨ e.stage = 3 ∨ e.stage = 5) : e.uses_module = false := by
  cases hu : e.uses_module with
  | false => rfl
  | true =>
    have := uses_module_stage e hu
    omega

/-- C2: whenever `read_module` reports failure, `main` returns -1 and no event
of the run uses the module: nothing is dumped, no object is emitted, nothing is
instantiated, no export is looked up and no function is invoked. -/
theorem main_decode_failure (env : Env) (args : Args)
    (h : Event.read_module none ∈ (main env args).trace) :
    (main env args).ret = some (-1) ∧
      ∀ e ∈ (main env args).trace, e.uses_module = false := by
  obtain ⟨pre, hpre, hcases⟩ := main_paths env args
  have hnp : Event.read_module none ∉ pre :=
    not_mem_of_stage_zero pre hpre _ (by simp [Event.stage])
  rcases hcases with ⟨tail, ht, hm⟩ | ⟨d, o, m, -, hrest⟩
  · rw [hm]
    refine ⟨rfl, ?_⟩
    intro e he
    simp only [List.mem_append] at he
    rcases he with he | he
    · exact uses_module_false_of_stage e (Or.inl (by rw [hpre e he]; omega))
    · rcases ht with rfl | ⟨s, rfl⟩ | ⟨s, rfl⟩
      · simp at he
      · simp at he; subst he; rfl
      · simp at he; rcases he with rfl | rfl <;> rfl
  · exfalso
    rcases hrest with ⟨-, evs, ok, hl, hm⟩ | ⟨-, -, s, hm⟩ | ⟨-, -, -, a, sz, hm⟩ |
      ⟨-, -, -, r, hr, hm⟩
    · rw [hm] at h
      simp [hnp] at h
      have := dump_loop_is_dump m _ _ (by rw [hl]; exact h)
      simp [Event.is_dump] at this
    · rw [hm] at h
      simp [hnp] at h
    · rw [hm] at h
      simp [hnp] at h
    · rw [hm] at h
      simp [hnp] at h
      have := main_execute_stage env args m _ (by rw [hr]; exact h)
      simp [Event.stage] at this

/-- C3: whenever `wasmjit_instantiate` returns no instance, `main` returns -1,
and the run contains no export lookup and no invocation. -/
theorem main_instantiate_failure (env : Env) (args : Args) (m : Module)
    (ms : List NamedModule)
    (h : Event.wasmjit_instantiate m ms 0 ∈ (main env args).trace) :
    (main env args).ret = some (-1) ∧
      ∀ e ∈ (main env args).trace, e.is_get_export = false ∧ e.is_invoke = false := by
  obtain ⟨pre, hpre, hcases⟩ := main_paths env args
  have hnp : Event.wasmjit_instantiate m ms 0 ∉ pre :=
    not_mem_of_stage_zero pre hpre _ (by simp [Event.stage])
  have hpre2 : ∀ e ∈ pre, e.is_get_export = false ∧ e.is_invoke = false := by
    intro e he
    have := hpre e he
    cases e <;> simp [Event.stage] at this <;> simp [Event.is_get_export, Event.is_invoke]
  rcases hcases with ⟨tail, ht, hm⟩ | ⟨d, o, m2, -, hrest⟩
  · exfalso
    rw [hm] at h
    rcases ht with rfl | ⟨s, rfl⟩ | ⟨s, rfl⟩ <;> simp [hnp] at h
  · rcases hrest with ⟨-, evs, ok, hl, hm⟩ | ⟨-, -, s, hm⟩ | ⟨-, -, -, a, sz, hm⟩ |
      ⟨-, -, -, r, hr, hm⟩
    · exfalso
      rw [hm] at h
      simp [hnp] at h
      have := dump_loop_is_dump m2 _ _ (by rw [hl]; exact h)
      simp [Event.is_dump] at this
    · exfalso
      rw [hm] at h
      simp [hnp] at h
    · exfalso
      rw [hm] at h
      simp [hnp] at h
    · rw [hm] at h ⊢
      rcases main_execute_paths env args m2 with
        he | ⟨ms2, -, he⟩ | ⟨ms2, s, -, he⟩ | ⟨ms2, inst, tail, ret, -, hi, he, ht⟩
      · rw [hr] at he; rw [he] at h
        simp [hnp] at h
      · rw [hr] at he; rw [he] at h
        simp [hnp] at h
      · rw [hr] at he; rw [he]
        refine ⟨rfl, ?_⟩
        intro e hmem
        simp at hmem
        rcases hmem with hmem | rfl | rfl | rfl | rfl | rfl
        · exact hpre2 e hmem
        all_goals simp [Event.is_get_export, Event.is_invoke]
      · exfalso
        rw [hr] at he; rw [he] at h
        simp [hnp] at h
        rcases h with ⟨-, -, h0⟩ | h
        · exact hi h0.symm
        · rcases ht with ⟨s, -, rfl⟩ | ⟨s, mi, -, -, rfl⟩ | ⟨s, mi, sa, -, -, -, rfl⟩ |
            ⟨mi, sa, mem, r2, -, -, -, -, rfl⟩ <;> simp at h

/-- An instantiation found in a run of `main` is that of the decoded module,
whose counts agree; the decode and the count comparison precede it. -/
theorem instantiate_after_validation (env : Env) (args : Args) (m : Module)
    (ms : List NamedModule) (r : Nat)
    (h : Event.wasmjit_instantiate m ms r ∈ (main env args).trace) :
    m.code_section.n_codes = m.function_section.n_typeidxs ∧
    before (Event.read_module (some m)) (Event.wasmjit_instantiate m ms r)
      (main env args).trace ∧
    before (Event.count_check m.code_section.n_codes m.function_section.n_typeidxs)
      (Event.wasmjit_instantiate m ms r) (main env args).trace := by
  obtain ⟨pre, hpre, hcases⟩ := main_paths env args
  have hnp : Event.wasmjit_instantiate m ms r ∉ pre :=
    not_mem_of_stage_zero pre hpre _ (by simp [Event.stage])
  rcases hcases with ⟨tail, ht, hm⟩ | ⟨d, o, m2, -, hrest⟩
  · exfalso
    rw [hm] at h
    rcases ht with rfl | ⟨s, rfl⟩ | ⟨s, rfl⟩ <;> simp [hnp] at h
  · rcases hrest with ⟨-, evs, ok, hl, hm⟩ | ⟨-, -, s, hm⟩ | ⟨-, -, -, a, sz, hm⟩ |
      ⟨-, hc, -, run, hr, hm⟩
    · exfalso
      rw [hm] at h
      simp [hnp] at h
      have := dump_loop_is_dump m2 _ _ (by rw [hl]; exact h)
      simp [Event.is_dump] at this
    · exfalso
      rw [hm] at h
      simp [hnp] at h
    · exfalso
      rw [hm] at h
      simp [hnp] at h
    · rw [hm] at h ⊢
      rcases main_execute_paths env args m2 with
        he | ⟨ms2, -, he⟩ | ⟨ms2, s, -, he⟩ | ⟨ms2, inst, tail, ret, -, hi, he, ht⟩
      · rw [hr] at he; rw [he] at h
        simp [hnp] at h
      · rw [hr] at he; rw [he] at h
        simp [hnp] at h
      · rw [hr] at he; rw [he] at h ⊢
        simp [hnp] at h
        obtain ⟨rfl, rfl, rfl⟩ := h
        refine ⟨hc, ?_, ?_⟩
        · exact before_append _ _ pre _ (by simp [before, List.takeWhile]) hnp
        · exact before_append _ _ pre _ (by simp [before, List.takeWhile]) hnp
      · rw [hr] at he; rw [he] at h ⊢
        simp [hnp] at h
        have h2 : m = m2 ∧ ms = ms2 ∧ r = inst := by
          rcases h with h | h
          · exact h
          · exfalso
            rcases ht with ⟨s, -, rfl⟩ | ⟨s, mi, -, -, rfl⟩ | ⟨s, mi, sa, -, -, -, rfl⟩ |
              ⟨mi, sa, mem, r2, -, -, -, -, rfl⟩ <;> simp at h
        obtain ⟨rfl, rfl, rfl⟩ := h2
        refine ⟨hc, ?_, ?_⟩
        · exact before_append _ _ pre _ (by simp [before, List.takeWhile]) hnp
        · exact before_append _ _ pre _ (by simp [before, List.takeWhile]) hnp

/-- The events of the instantiation block are no object emission and no count
comparison. -/
theorem main_execute_not_emit (env : Env) (args : Args) (m : Module) (e : Event)
    (h : e ∈ (main_execute env args m).trace) : e.stage ≠ 4 ∧ e.stage ≠ 3 := by
  have := main_execute_stage env args m e h
  omega

/-- An object emission found in a run of `main` is that of the decoded module,
whose counts agree; the decode and the count comparison precede it. -/
theorem emit_after_validation (env : Env) (args : Args) (m : Module) (a_out size : Nat)
    (h : Event.wasmjit_output_elf_relocatable m a_out size ∈ (main env args).trace) :
    m.code_section.n_codes = m.function_section.n_typeidxs ∧
    before (Event.read_module (some m)) (Event.wasmjit_output_elf_relocatable m a_out size)
      (main env args).trace ∧
    before (Event.count_check m.code_section.n_codes m.function_section.n_typeidxs)
      (Event.wasmjit_output_elf_relocatable m a_out size) (main env args).trace := by
  obtain ⟨pre, hpre, hcases⟩ := main_paths env args
  have hnp : Event.wasmjit_output_elf_relocatable m a_out size ∉ pre :=
    not_mem_of_stage_zero pre hpre _ (by simp [Event.stage])
  rcases hcases with ⟨tail, ht, hm⟩ | ⟨d, o, m2, -, hrest⟩
  · exfalso
    rw [hm] at h
    rcases ht with rfl | ⟨s, rfl⟩ | ⟨s, rfl⟩ <;> simp [hnp] at h
  · rcases hrest with ⟨-, evs, ok, hl, hm⟩ | ⟨-, -, s, hm⟩ | ⟨-, hc, -, a, sz, hm⟩ |
      ⟨-, hc, -, run, hr, hm⟩
    · exfalso
      rw [hm] at h
      simp [hnp] at h
      have := dump_loop_is_dump m2 _ _ (by rw [hl]; exact h)
      simp [Event.is_dump] at this
    · exfalso
      rw [hm] at h
      simp [hnp] at h
    · rw [hm] at h ⊢
      simp [hnp] at h
      obtain ⟨rfl, rfl, rfl⟩ := h
      refine ⟨hc, ?_, ?_⟩
      · exact before_append _ _ pre _ (by simp [before, List.takeWhile]) hnp
      · exact before_append _ _ pre _ (by simp [before, List.takeWhile]) hnp
    · exfalso
      rw [hm] at h
      simp [hnp] at h
      have := main_execute_not_emit env args m2 _ (by rw [hr]; exact h)
      simp [Event.stage] at this

/-- A count comparison that finds different counts makes `main` return -1
without instantiating and without emitting an object. -/
theorem failed_check_returns (env : Env) (args : Args) (a b : Nat)
    (h : Event.count_check a b ∈ (main env args).trace) (hab : a ≠ b) :
    (main env args).ret = some (-1) ∧
      ∀ e ∈ (main env args).trace, e.is_instantiate = false ∧ e.is_emit = false := by
  obtain ⟨pre, hpre, hcases⟩ := main_paths env args
  have hnp : Event.count_check a b ∉ pre :=
    not_mem_of_stage_zero pre hpre _ (by simp [Event.stage])
  have hpre2 : ∀ e ∈ pre, e.is_instantiate = false ∧ e.is_emit = false := by
    intro e he
    have := hpre e he
    cases e <;> simp [Event.stage] at this <;> simp [Event.is_instantiate, Event.is_emit]
  rcases hcases with ⟨tail, ht, hm⟩ | ⟨d, o, m2, -, hrest⟩
  · exfalso
    rw [hm] at h
    rcases ht with rfl | ⟨s, rfl⟩ | ⟨s, rfl⟩ <;> simp [hnp] at h
  · rcases hrest with ⟨-, evs, ok, hl, hm⟩ | ⟨-, -, s, hm⟩ | ⟨-, hc, -, a2, sz, hm⟩ |
      ⟨-, hc, -, run, hr, hm⟩
    · exfalso
      rw [hm] at h
      simp [hnp] at h
      have := dump_loop_is_dump m2 _ _ (by rw [hl]; exact h)
      simp [Event.is_dump] at this
    · rw [hm]
      refine ⟨rfl, ?_⟩
      intro e hmem
      simp at hmem
      rcases hmem with hmem | rfl | rfl | rfl
      · exact hpre2 e hmem
      all_goals simp [Event.is_instantiate, Event.is_emit]
    · exfalso
      rw [hm] at h
      simp [hnp] at h
      exact hab (by rw [h.1, h.2, hc])
    · exfalso
      rw [hm] at h
      simp [hnp] at h
      rcases h with h | h
      · exact hab (by rw [h.1, h.2, hc])
      · have := main_execute_not_emit env args m2 _ (by rw [hr]; exact h)
        simp [Event.stage] at this

/-- Without a host module named `env` the search yields the null pointer. -/
theorem find_env_eq_zero (ms : List NamedModule) (h : ∀ nm ∈ ms, nm.name ≠ "env") :
    find_env ms = 0 := by
  induction ms with
  | nil => rfl
  | cons nm rest ih =>
    have h1 : nm.name ≠ "env" := h nm (by simp)
    have h2 : ∀ x ∈ rest, x.name ≠ "env" := fun x hx => h x (by simp [hx])
    simp [find_env, h1, ih h2]

/-- A non-null result of the search is the instance of a host module named
`env`. -/
theorem find_env_ne_zero (ms : List NamedModule) (h : find_env ms ≠ 0) :
    ∃ nm ∈ ms, nm.name = "env" ∧ nm.module = find_env ms := by
  induction ms with
  | nil => simp [find_env] at h
  | cons nm rest ih =>
    by_cases h1 : nm.name = "env"
    · exact ⟨nm, by simp, h1, by simp [find_env, h1]⟩
    · have h2 : find_env (nm :: rest) = find_env rest := by simp [find_env, h1]
      rw [h2] at h ⊢
      obtain ⟨x, hx, hn, hmod⟩ := ih h
      exact ⟨x, by simp [hx], hn, hmod⟩

/-- An invocation of the entry point found in a run of `main` follows three
successful lookups on the instance made by `wasmjit_instantiate` and on the
host module named `env`. -/
theorem invoke_after_lookups (env : Env) (args : Args)
    (meminst stack_alloc_inst main_inst argc : Nat) (argv : List String) (r : Int)
    (h : Event.wasmjit_emscripten_invoke_main meminst stack_alloc_inst main_inst argc argv r ∈
      (main env args).trace) :
    main_inst ≠ 0 ∧ stack_alloc_inst ≠ 0 ∧ meminst ≠ 0 ∧
    ∃ module modules module_inst,
      Event.wasmjit_instantiate_emscripten_runtime (some modules) ∈ (main env args).trace ∧
      (∃ nm ∈ modules, nm.name = "env" ∧ nm.module = find_env modules) ∧
      find_env modules ≠ 0 ∧
      Event.wasmjit_instantiate module modules module_inst ∈ (main env args).trace ∧
      module_inst ≠ 0 ∧
      before (Event.wasmjit_get_export module_inst "_main" DescType.IMPORT_DESC_TYPE_FUNC
          main_inst)
        (Event.wasmjit_emscripten_invoke_main meminst stack_alloc_inst main_inst argc argv r)
        (main env args).trace ∧
      before (Event.wasmjit_get_export module_inst "stackAlloc" DescType.IMPORT_DESC_TYPE_FUNC
          stack_alloc_inst)
        (Event.wasmjit_emscripten_invoke_main meminst stack_alloc_inst main_inst argc argv r)
        (main env args).trace ∧
      before (Event.wasmjit_get_export (find_env modules) "memory"
          DescType.IMPORT_DESC_TYPE_MEM meminst)
        (Event.wasmjit_emscripten_invoke_main meminst stack_alloc_inst main_inst argc argv r)
        (main env args).trace := by
  obtain ⟨pre, hpre, hcases⟩ := main_paths env args
  have hnp : Event.wasmjit_emscripten_invoke_main meminst stack_alloc_inst main_inst argc
      argv r ∉ pre :=
    not_mem_of_stage_zero pre hpre _ (by simp [Event.stage])
  rcases hcases with ⟨tail, ht, hm⟩ | ⟨d, o, m2, -, hrest⟩
  · exfalso
    rw [hm] at h
    rcases ht with rfl | ⟨s, rfl⟩ | ⟨s, rfl⟩ <;> simp [hnp] at h
  · rcases hrest with ⟨-, evs, ok, hl, hm⟩ | ⟨-, -, s, hm⟩ | ⟨-, hc, -, a, sz, hm⟩ |
      ⟨-, hc, -, run, hr, hm⟩
    · exfalso
      rw [hm] at h
      simp [hnp] at h
      have := dump_loop_is_dump m2 _ _ (by rw [hl]; exact h)
      simp [Event.is_dump] at this
    · exfalso
      rw [hm] at h
      simp [hnp] at h
    · exfalso
      rw [hm] at h
      simp [hnp] at h
    · rw [hm] at h ⊢
      rcases main_execute_paths env args m2 with
        he | ⟨ms2, -, he⟩ | ⟨ms2, s, -, he⟩ | ⟨ms2, inst, tail, ret, henv, hi, he, ht⟩
      · rw [hr] at he; rw [he] at h
        simp [hnp] at h
      · rw [hr] at he; rw [he] at h
        simp [hnp] at h
      · rw [hr] at he; rw [he] at h
        simp [hnp] at h
      · rw [hr] at he; rw [he] at h ⊢
        rcases ht with ⟨s, -, rfl⟩ | ⟨s, mi, -, -, rfl⟩ | ⟨s, mi, sa, -, -, -, rfl⟩ |
          ⟨mi, sa, mem, r2, h1, h2, h3, -, rfl⟩
        · simp [hnp] at h
        · simp [hnp] at h
        · simp [hnp] at h
        · simp [hnp] at h
          obtain ⟨rfl, rfl, rfl, rfl, rfl, rfl⟩ := h
          refine ⟨h1, h2, h3, m2, ms2, inst, by simp, find_env_ne_zero ms2 henv, henv,
            by simp, hi, ?_, ?_, ?_⟩
          · exact before_append _ _ pre _ (by simp [before, List.takeWhile]) hnp
          · exact before_append _ _ pre _ (by simp [before, List.takeWhile]) hnp
          · exact before_append _ _ pre _ (by simp [before, List.takeWhile]) hnp

/-- Loading events are of none of the kinds the claims speak about. -/
theorem stage_zero_not_engine (pre : List Event) (hpre : ∀ e ∈ pre, e.stage = 0) :
    ∀ e ∈ pre, e.is_invoke = false ∧ e.is_instantiate = false ∧ e.is_emit = false ∧
      e.is_get_export = false ∧ e.is_count_check = false ∧ e.is_dump = false := by
  intro e he
  have := hpre e he
  cases e <;> simp [Event.stage] at this <;>
    simp [Event.is_invoke, Event.is_instantiate, Event.is_emit, Event.is_get_export,
      Event.is_count_check, Event.is_dump]

/-- A lookup that answers not found makes `main` return -1 without invoking the
entry point. -/
theorem lookup_failure_returns (env : Env) (args : Args) (module_inst : Nat) (name : String)
    (type : DescType)
    (h : Event.wasmjit_get_export module_inst name type 0 ∈ (main env args).trace) :
    (main env args).ret = some (-1) ∧ ∀ e ∈ (main env args).trace, e.is_invoke = false := by
  obtain ⟨pre, hpre, hcases⟩ := main_paths env args
  have hnp : Event.wasmjit_get_export module_inst name type 0 ∉ pre :=
    not_mem_of_stage_zero pre hpre _ (by simp [Event.stage])
  have hpre2 := stage_zero_not_engine pre hpre
  rcases hcases with ⟨tail, ht, hm⟩ | ⟨d, o, m2, -, hrest⟩
  · exfalso
    rw [hm] at h
    rcases ht with rfl | ⟨s, rfl⟩ | ⟨s, rfl⟩ <;> simp [hnp] at h
  · rcases hrest with ⟨-, evs, ok, hl, hm⟩ | ⟨-, -, s, hm⟩ | ⟨-, hc, -, a, sz, hm⟩ |
      ⟨-, hc, -, run, hr, hm⟩
    · exfalso
      rw [hm] at h
      simp [hnp] at h
      have := dump_loop_is_dump m2 _ _ (by rw [hl]; exact h)
      simp [Event.is_dump] at this
    · exfalso
      rw [hm] at h
      simp [hnp] at h
    · exfalso
      rw [hm] at h
      simp [hnp] at h
    · rw [hm] at h ⊢
      rcases main_execute_paths env args m2 with
        he | ⟨ms2, -, he⟩ | ⟨ms2, s, -, he⟩ | ⟨ms2, inst, tail, ret, henv, hi, he, ht⟩
      · rw [hr] at he; rw [he] at h
        simp [hnp] at h
      · rw [hr] at he; rw [he] at h
        simp [hnp] at h
      · rw [hr] at he; rw [he] at h
        simp [hnp] at h
      · rw [hr] at he; rw [he] at h ⊢
        rcases ht with ⟨s, rfl, rfl⟩ | ⟨s, mi, -, rfl, rfl⟩ | ⟨s, mi, sa, -, -, rfl, rfl⟩ |
          ⟨mi, sa, mem, r2, h1, h2, h3, -, rfl⟩
        · refine ⟨rfl, ?_⟩
          intro e hmem
          simp at hmem
          rcases hmem with hmem | rfl | rfl | rfl | rfl | rfl | rfl
          · exact (hpre2 e hmem).1
          all_goals rfl
        · refine ⟨rfl, ?_⟩
          intro e hmem
          simp at hmem
          rcases hmem with hmem | rfl | rfl | rfl | rfl | rfl | rfl | rfl
          · exact (hpre2 e hmem).1
          all_goals rfl
        · refine ⟨rfl, ?_⟩
          intro e hmem
          simp at hmem
          rcases hmem with hmem | rfl | rfl | rfl | rfl | rfl | rfl | rfl | rfl
          · exact (hpre2 e hmem).1
          all_goals rfl
        · exfalso
          simp [hnp] at h
          rcases h with h | h | h
          · exact h1 h.2.2.2.symm
          · exact h2 h.2.2.2.symm
          · exact h3 h.2.2.2.symm

/-- When the search for the host module named `env` yields nothing, `main`
returns -1 without instantiating and without invoking the entry point. -/
theorem no_env_returns (env : Env) (args : Args) (modules : List NamedModule)
    (h : Event.wasmjit_instantiate_emscripten_runtime (some modules) ∈ (main env args).trace)
    (h0 : find_env modules = 0) :
    (main env args).ret = some (-1) ∧
      ∀ e ∈ (main env args).trace, e.is_invoke = false ∧ e.is_instantiate = false := by
  obtain ⟨pre, hpre, hcases⟩ := main_paths env args
  have hnp : Event.wasmjit_instantiate_emscripten_runtime (some modules) ∉ pre :=
    not_mem_of_stage_zero pre hpre _ (by simp [Event.stage])
  have hpre2 := stage_zero_not_engine pre hpre
  rcases hcases with ⟨tail, ht, hm⟩ | ⟨d, o, m2, -, hrest⟩
  · exfalso
    rw [hm] at h
    rcases ht with rfl | ⟨s, rfl⟩ | ⟨s, rfl⟩ <;> simp [hnp] at h
  · rcases hrest with ⟨-, evs, ok, hl, hm⟩ | ⟨-, -, s, hm⟩ | ⟨-, hc, -, a, sz, hm⟩ |
      ⟨-, hc, -, run, hr, hm⟩
    · exfalso
      rw [hm] at h
      simp [hnp] at h
      have := dump_loop_is_dump m2 _ _ (by rw [hl]; exact h)
      simp [Event.is_dump] at this
    · exfalso
      rw [hm] at h
      simp [hnp] at h
    · exfalso
      rw [hm] at h
      simp [hnp] at h
    · rw [hm] at h ⊢
      rcases main_execute_paths env args m2 with
        he | ⟨ms2, -, he⟩ | ⟨ms2, s, henv, he⟩ | ⟨ms2, inst, tail, ret, henv, hi, he, ht⟩
      · rw [hr] at he; rw [he] at h
        simp [hnp] at h
      · rw [hr] at he; rw [he]
        refine ⟨rfl, ?_⟩
        intro e hmem
        simp at hmem
        rcases hmem with hmem | rfl | rfl | rfl
        · exact ⟨(hpre2 e hmem).1, (hpre2 e hmem).2.1⟩
        all_goals exact ⟨rfl, rfl⟩
      · exfalso
        rw [hr] at he; rw [he] at h
        simp [hnp] at h
        exact henv (h ▸ h0)
      · exfalso
        rw [hr] at he; rw [he] at h
        simp [hnp] at h
        rcases h with h | h
        · exact henv (h ▸ h0)
        · rcases ht with ⟨s, -, rfl⟩ | ⟨s, mi, -, -, rfl⟩ | ⟨s, mi, sa, -, -, -, rfl⟩ |
            ⟨mi, sa, mem, r2, -, -, -, -, rfl⟩ <;> simp at h

/-- The option loop sets `dump_module` exactly when `-d` is among the options
and `create_relocatable` exactly when `-o` is. -/
theorem parse_opts_flags (opts : List Char) (d0 o0 d o : Int)
    (h : parse_opts opts d0 o0 = some (d, o)) :
    (d ≠ 0 ↔ d0 ≠ 0 ∨ 'd' ∈ opts) ∧ (o ≠ 0 ↔ o0 ≠ 0 ∨ 'o' ∈ opts) := by
  induction opts generalizing d0 o0 with
  | nil =>
    simp [parse_opts] at h
    obtain ⟨rfl, rfl⟩ := h
    simp
  | cons c rest ih =>
    unfold parse_opts at h
    split_ifs at h with h1 h2
    · have := ih d0 1 h
      subst h1
      simp [this]
    · have := ih 1 o0 h
      subst h2
      simp [this]

/-- The stage of an event of a given kind. -/
theorem stage_of_kind (e : Event) :
    (e.is_dump = true → e.stage = 2) ∧ (e.is_count_check = true → e.stage = 3) ∧
    (e.is_emit = true → e.stage = 4) ∧ (e.is_instantiate = true → e.stage = 6) ∧
    (e.is_get_export = true → e.stage = 7) ∧ (e.is_invoke = true → e.stage = 8) := by
  cases e <;> simp [Event.is_dump, Event.is_count_check, Event.is_emit, Event.is_instantiate,
    Event.is_get_export, Event.is_invoke, Event.stage]

/-- An event outside the stage of a kind is not of that kind. -/
theorem kind_false_of_stage (e : Event) :
    (e.stage ≠ 2 → e.is_dump = false) ∧ (e.stage ≠ 3 → e.is_count_check = false) ∧
    (e.stage ≠ 4 → e.is_emit = false) ∧ (e.stage ≠ 6 → e.is_instantiate = false) ∧
    (e.stage ≠ 7 → e.is_get_export = false) ∧ (e.stage ≠ 8 → e.is_invoke = false) := by
  cases e <;> simp [Event.is_dump, Event.is_count_check, Event.is_emit, Event.is_instantiate,
    Event.is_get_export, Event.is_invoke, Event.stage]

/-- The three modes of the driver after a successful decode.  With `-d` the run
only dumps, and returns 0 when no read of the dump leaves the declared bounds;
without `-d`, with `-o` and equal counts, it emits the object and returns 0;
with neither flag it neither dumps nor emits. -/
theorem main_mode_priority (env : Env) (args : Args) (m : Module)
    (h : Event.read_module (some m) ∈ (main env args).trace) :
    ('d' ∈ args.opts →
      (main env args).ret =
        (if (dump_loop m (List.range m.code_section.n_codes)).2 then some 0 else none) ∧
      ∀ e ∈ (main env args).trace, e.is_count_check = false ∧ e.is_emit = false ∧
        e.is_instantiate = false ∧ e.is_get_export = false ∧ e.is_invoke = false) ∧
    ('d' ∉ args.opts → 'o' ∈ args.opts →
      m.code_section.n_codes = m.function_section.n_typeidxs →
      (main env args).ret = some 0 ∧
      (∃ a_out size, Event.wasmjit_output_elf_relocatable m a_out size ∈
        (main env args).trace) ∧
      ∀ e ∈ (main env args).trace, e.is_dump = false ∧ e.is_instantiate = false ∧
        e.is_get_export = false ∧ e.is_invoke = false) ∧
    ('d' ∉ args.opts → 'o' ∉ args.opts →
      ∀ e ∈ (main env args).trace, e.is_dump = false ∧ e.is_emit = false) := by
  obtain ⟨pre, hpre, hcases⟩ := main_paths env args
  have hnp : Event.read_module (some m) ∉ pre :=
    not_mem_of_stage_zero pre hpre _ (by simp [Event.stage])
  have hpre2 := stage_zero_not_engine pre hpre
  rcases hcases with ⟨tail, ht, hm⟩ | ⟨d, o, m2, hp, hrest⟩
  · exfalso
    rw [hm] at h
    rcases ht with rfl | ⟨s, rfl⟩ | ⟨s, rfl⟩ <;> simp [hnp] at h
  · have hflags := parse_opts_flags args.opts 0 0 d o hp
    simp only [ne_eq, not_true_eq_false, false_or] at hflags
    rcases hrest with ⟨hd, evs, ok, hl, hm⟩ | ⟨hd, hc, s, hm⟩ | ⟨hd, hc, ho, a, sz, hm⟩ |
      ⟨hd, hc, ho, run, hr, hm⟩
    · rw [hm] at h ⊢
      simp [hnp] at h
      have hmm : m = m2 := by
        rcases h with h | h
        · exact h
        · have := dump_loop_is_dump m2 _ _ (by rw [hl]; exact h)
          simp [Event.is_dump] at this
      subst hmm
      have hdo : 'd' ∈ args.opts := hflags.1.mp hd
      refine ⟨fun _ => ⟨by simp [hl], ?_⟩, fun hn => absurd hdo hn, fun hn => absurd hdo hn⟩
      intro e hmem
      simp at hmem
      rcases hmem with hmem | rfl | hmem
      · have := hpre2 e hmem
        simp [this]
      · simp [Event.is_count_check, Event.is_emit, Event.is_instantiate, Event.is_get_export,
          Event.is_invoke]
      · have h2 := (stage_of_kind e).1 (dump_loop_is_dump m _ e (by rw [hl]; exact hmem))
        have := kind_false_of_stage e
        simp [h2] at this
        simp [this]
    · rw [hm] at h ⊢
      simp [hnp] at h
      subst h
      have hdo : 'd' ∉ args.opts := fun hx => (hflags.1.mpr hx) hd
      refine ⟨fun hx => absurd hx hdo, fun _ _ hx => absurd hx hc, fun _ _ => ?_⟩
      intro e hmem
      simp at hmem
      rcases hmem with hmem | rfl | rfl | rfl
      · have := hpre2 e hmem
        simp [this]
      all_goals simp [Event.is_dump, Event.is_emit]
    · rw [hm] at h ⊢
      simp [hnp] at h
      subst h
      have hdo : 'd' ∉ args.opts := fun hx => (hflags.1.mpr hx) hd
      have hoo : 'o' ∈ args.opts := hflags.2.mp ho
      refine ⟨fun hx => absurd hx hdo, fun _ _ _ => ⟨rfl, ⟨a, sz, by simp⟩, ?_⟩,
        fun _ hx => absurd hoo hx⟩
      intro e hmem
      simp at hmem
      rcases hmem with hmem | rfl | rfl | rfl | rfl
      · have := hpre2 e hmem
        simp [this]
      all_goals simp [Event.is_dump, Event.is_instantiate, Event.is_get_export, Event.is_invoke]
    · rw [hm] at h ⊢
      simp [hnp] at h
      have hmm : m = m2 := by
        rcases h with h | h
        · exact h
        · have := main_execute_stage env args m2 _ (by rw [hr]; exact h)
          simp [Event.stage] at this
      subst hmm
      have hdo : 'd' ∉ args.opts := fun hx => (hflags.1.mpr hx) hd
      have hoo : 'o' ∉ args.opts := fun hx => (hflags.2.mpr hx) ho
      refine ⟨fun hx => absurd hx hdo, fun _ hx => absurd hx hoo, fun _ _ => ?_⟩
      intro e hmem
      simp at hmem
      rcases hmem with hmem | rfl | rfl | hmem
      · have := hpre2 e hmem
        simp [this]
      · simp [Event.is_dump, Event.is_emit]
      · simp [Event.is_dump, Event.is_emit]
      · have h5 := main_execute_stage env args m e (by rw [hr]; exact hmem)
        have := kind_false_of_stage e
        exact ⟨this.1 (by omega), this.2.2.1 (by omega)⟩

/-- One iteration of the dump stays within the declared counts exactly when
`i` indexes the code section and the function section and `typeidxs[i]`
indexes the type section. -/
theorem dump_code_ok_iff (m : Module) (i : Nat) :
    (dump_code m i).2 = true ↔
      i < m.code_section.n_codes ∧ i < m.function_section.n_typeidxs ∧
      ∃ t, m.function_section.typeidxs[i]? = some t ∧ t < m.type_section.n_types := by
  unfold dump_code CodeSection.n_codes FunctionSection.n_typeidxs TypeSection.n_types
  cases hc : m.code_section.codes[i]? with
  | none =>
    have := List.getElem?_eq_none_iff.mp hc
    simp
    omega
  | some code =>
    have hci : i < m.code_section.codes.length := by
      by_contra hlt
      rw [List.getElem?_eq_none (by omega)] at hc
      exact absurd hc (by simp)
    cases ht : m.function_section.typeidxs[i]? with
    | none =>
      simp
    | some t =>
      have hti : i < m.function_section.typeidxs.length := by
        by_contra hlt
        rw [List.getElem?_eq_none (by omega)] at ht
        exact absurd ht (by simp)
      cases hty : m.type_section.types[t]? with
      | none =>
        have := List.getElem?_eq_none_iff.mp hty
        simp [hci, hti, hty]
        omega
      | some type =>
        have htt : t < m.type_section.types.length := by
          by_contra hlt
          rw [List.getElem?_eq_none (by omega)] at hty
          exact absurd hty (by simp)
        simp [hci, hti, htt, hty]

/-- The dump loop completes exactly when each of its iterations does. -/
theorem dump_loop_ok_iff (m : Module) (l : List Nat) :
    (dump_loop m l).2 = true ↔ ∀ i ∈ l, (dump_code m i).2 = true := by
  induction l with
  | nil => simp [dump_loop]
  | cons i rest ih =>
    unfold dump_loop
    cases hc : dump_code m i with
    | mk evs ok =>
      cases ok with
      | false => simp [hc]
      | true =>
        cases hl : dump_loop m rest with
        | mk evs2 ok2 =>
          rw [hl] at ih
          simp at ih
          simp [hc, ih]

/-- The dump of a module reads only within the declared counts exactly when,
for every code body index, the index is a valid function index and the type
index found there is a valid type index. -/
theorem dump_in_bounds_iff (m : Module) :
    (dump_loop m (List.range m.code_section.n_codes)).2 = true ↔
      ∀ i, i < m.code_section.n_codes →
        i < m.function_section.n_typeidxs ∧
        ∃ t, m.function_section.typeidxs[i]? = some t ∧ t < m.type_section.n_types := by
  rw [dump_loop_ok_iff]
  constructor
  · intro h i hi
    have := (dump_code_ok_iff m i).mp (h i (List.mem_range.mpr hi))
    exact this.2
  · intro h i hi
    have hi2 := List.mem_range.mp hi
    exact (dump_code_ok_iff m i).mpr ⟨hi2, h i hi2⟩

/-- Addition of bit patterns modulo `2 ^ 32` is the bit pattern of the sum. -/
theorem i32_of_int_add (a b : Int) :
    (i32_of_int a + i32_of_int b) % 2 ^ 32 = i32_of_int (a + b) := by
  unfold i32_of_int
  omega

/-- An integer of the signed 32-bit range is recovered from its bit pattern. -/
theorem i32_roundtrip (a : Int) (h1 : -(2 ^ 31) ≤ a) (h2 : a < 2 ^ 31) :
    i32_to_int (i32_of_int a) = a := by
  unfold i32_to_int i32_of_int
  split_ifs with h <;> omega

/-! ## The file loader -/

/-- The pointer returned by `load_file`: null when `open`, `fstat` or `fdopen`
fails, and otherwise whatever `malloc` returned, whether or not `fread`
delivered the whole file. -/
theorem load_file_input (sys : FileSys) (file_name : String) :
    (load_file sys file_name).input =
      if sys.open_fd < 0 ∨ sys.fstat_ret < 0 ∨ sys.fdopen_f = 0 then 0 else sys.malloc_p := by
  unfold load_file error_exit success_exit
  by_cases h1 : sys.open_fd < 0
  · simp [h1]; split_ifs <;> rfl
  · by_cases h2 : sys.fstat_ret < 0
    · simp [h1, h2]; split_ifs <;> rfl
    · by_cases h3 : sys.fdopen_f = 0
      · simp [h1, h2, h3]; split_ifs <;> rfl
      · by_cases h4 : sys.malloc_p = 0
        · simp [h1, h2, h3, h4]
        · by_cases h5 : sys.fread_n = sys.st_size
          · simp [h1, h2, h3, h4, h5]
          · simp [h1, h2, h3, h4, h5]

/-- The buffer is passed to `free` exactly when it was allocated and `fread`
did not deliver `st_size` bytes. -/
theorem load_file_freed (sys : FileSys) (file_name : String) (p : Nat) :
    freed (load_file sys file_name).calls p ↔
      ¬ sys.open_fd < 0 ∧ ¬ sys.fstat_ret < 0 ∧ sys.fdopen_f ≠ 0 ∧ sys.malloc_p ≠ 0 ∧
      sys.fread_n ≠ sys.st_size ∧ p = sys.malloc_p := by
  unfold freed load_file error_exit success_exit
  by_cases h1 : sys.open_fd < 0
  · have h1b : ¬ (0 ≤ sys.open_fd) := by omega
    simp [h1, h1b]
  · have h1b : 0 ≤ sys.open_fd := by omega
    by_cases h2 : sys.fstat_ret < 0
    · simp [h1, h2, h1b]
    · by_cases h3 : sys.fdopen_f = 0
      · simp [h1, h2, h3, h1b]
      · by_cases h4 : sys.malloc_p = 0
        · simp [h1, h2, h3, h4]
        · by_cases h5 : sys.fread_n = sys.st_size
          · simp [h1, h2, h3, h4, h5]
          · simp [h1, h2, h3, h4, h5]

/-- C8: at a path from which `fread` delivers fewer than `st_size` bytes while
every earlier call succeeds, a step of `load_file` has failed, yet `load_file`
returns the non-null pointer it has just freed, and `init_pstate_user` hands
that freed buffer to `init_pstate` and returns its result instead of 0. -/
theorem load_file_short_read_returns_freed_buffer :
    load_step_failed short_read_sys ∧
    (load_file short_read_sys "dir").input = 1000 ∧
    freed (load_file short_read_sys "dir").calls 1000 ∧
    (init_pstate_user short_read_sys (fun _ _ => 1) "dir").passed = some (1000, some 4096) ∧
    (init_pstate_user short_read_sys (fun _ _ => 1) "dir").ret = 1 := by
  decide

/-- C10: on every path through `load_file` the descriptor obtained from `open`
is released exactly once: nothing is released when `open` failed, `close` is
the only release when `fstat` or `fdopen` failed, and `fclose` is the only
release once `fdopen` succeeded. -/
theorem load_file_releases_descriptor_once (sys : FileSys) (file_name : String) :
    releases (load_file sys file_name).calls =
      if sys.open_fd < 0 then []
      else if sys.fstat_ret < 0 ∨ sys.fdopen_f = 0 then [SysCall.c_close sys.open_fd]
      else [SysCall.c_fclose sys.fdopen_f] := by
  unfold load_file error_exit success_exit releases
  by_cases h1 : sys.open_fd < 0
  · have h1b : ¬ (0 ≤ sys.open_fd) := by omega
    simp [h1, h1b]
  · by_cases h2 : sys.fstat_ret < 0
    · have h1b : 0 ≤ sys.open_fd := by omega
      simp [h1, h2, h1b]
    · by_cases h3 : sys.fdopen_f = 0
      · have h1b : 0 ≤ sys.open_fd := by omega
        simp [h1, h2, h3, h1b]
      · by_cases h4 : sys.malloc_p = 0
        · simp [h1, h2, h3, h4]
        · by_cases h5 : sys.fread_n = sys.st_size
          · simp [h1, h2, h3, h4, h5]
          · simp [h1, h2, h3, h4, h5]

/-! ## The claims about `main` -/

/-- C1: on every path of `main` that reaches `wasmjit_instantiate`, and on every
path that reaches `wasmjit_output_elf_relocatable`, the module handed over is
the one `read_module` returned with success, its code and function counts are
equal, and both the decode and the count comparison come earlier in the run; a
count comparison that finds different counts makes `main` return -1 with
neither call made. -/
theorem main_engine_only_after_validation (env : Env) (args : Args) :
    (∀ m ms r, Event.wasmjit_instantiate m ms r ∈ (main env args).trace →
      m.code_section.n_codes = m.function_section.n_typeidxs ∧
      before (Event.read_module (some m)) (Event.wasmjit_instantiate m ms r)
        (main env args).trace ∧
      before (Event.count_check m.code_section.n_codes m.function_section.n_typeidxs)
        (Event.wasmjit_instantiate m ms r) (main env args).trace) ∧
    (∀ m a_out size,
      Event.wasmjit_output_elf_relocatable m a_out size ∈ (main env args).trace →
      m.code_section.n_codes = m.function_section.n_typeidxs ∧
      before (Event.read_module (some m)) (Event.wasmjit_output_elf_relocatable m a_out size)
        (main env args).trace ∧
      before (Event.count_check m.code_section.n_codes m.function_section.n_typeidxs)
        (Event.wasmjit_output_elf_relocatable m a_out size) (main env args).trace) ∧
    (∀ a b, Event.count_check a b ∈ (main env args).trace → a ≠ b →
      (main env args).ret = some (-1) ∧
      ∀ e ∈ (main env args).trace, e.is_instantiate = false ∧ e.is_emit = false) :=
  ⟨fun m ms r h => instantiate_after_validation env args m ms r h,
   fun m a_out size h => emit_after_validation env args m a_out size h,
   fun a b h hab => failed_check_returns env args a b h hab⟩

/-- Witness of C1: a run that instantiates the decoded module, and a run whose
count comparison fails. -/
theorem main_engine_only_after_validation_witness :
    (Event.wasmjit_instantiate add_module demo_modules 60 ∈
        (main (demo_env (some add_module) (some demo_modules) 60 (fun _ _ _ => 70))
          demo_args).trace ∧
      add_module.code_section.n_codes = add_module.function_section.n_typeidxs) ∧
    (Event.count_check 1 0 ∈
        (main (demo_env (some codes_without_functions) (some demo_modules) 60
          (fun _ _ _ => 70)) demo_args).trace ∧
      (main (demo_env (some codes_without_functions) (some demo_modules) 60
          (fun _ _ _ => 70)) demo_args).ret = some (-1)) :=
  ⟨⟨by decide,
    ((main_engine_only_after_validation
      (demo_env (some add_module) (some demo_modules) 60 (fun _ _ _ => 70)) demo_args).1
      add_module demo_modules 60 (by decide)).1⟩,
   ⟨by decide,
    ((main_engine_only_after_validation
      (demo_env (some codes_without_functions) (some demo_modules) 60 (fun _ _ _ => 70))
      demo_args).2.2 1 0 (by decide) (by decide)).1⟩⟩

/-- Witness of C2: a run in which `read_module` fails. -/
theorem main_decode_failure_witness :
    Event.read_module none ∈
      (main (demo_env none (some demo_modules) 60 (fun _ _ _ => 70)) demo_args).trace ∧
    (main (demo_env none (some demo_modules) 60 (fun _ _ _ => 70)) demo_args).ret =
      some (-1) ∧
    ∀ e ∈ (main (demo_env none (some demo_modules) 60 (fun _ _ _ => 70)) demo_args).trace,
      e.uses_module = false :=
  ⟨by decide,
   main_decode_failure (demo_env none (some demo_modules) 60 (fun _ _ _ => 70)) demo_args
     (by decide)⟩

/-- Witness of C3: a run in which `wasmjit_instantiate` returns the null
pointer. -/
theorem main_instantiate_failure_witness :
    Event.wasmjit_instantiate add_module demo_modules 0 ∈
      (main (demo_env (some add_module) (some demo_modules) 0 (fun _ _ _ => 70))
        demo_args).trace ∧
    (main (demo_env (some add_module) (some demo_modules) 0 (fun _ _ _ => 70))
        demo_args).ret = some (-1) ∧
    ∀ e ∈ (main (demo_env (some add_module) (some demo_modules) 0 (fun _ _ _ => 70))
        demo_args).trace, e.is_get_export = false ∧ e.is_invoke = false :=
  ⟨by decide,
   main_instantiate_failure
     (demo_env (some add_module) (some demo_modules) 0 (fun _ _ _ => 70)) demo_args
     add_module demo_modules (by decide)⟩

/-- C4: an invocation of the entry point found in a run of `main` has non-null
`_main`, `stackAlloc` and `memory` handles, each the answer of an earlier
lookup: `_main` and `stackAlloc` as function exports of the instance returned
by `wasmjit_instantiate`, `memory` as memory export of the host module named
`env`.  A lookup answering not found makes `main` return -1 without any
invocation, and so does the absence of a host module named `env`, in which
case nothing is instantiated either. -/
theorem main_invoke_only_after_lookups (env : Env) (args : Args) :
    (∀ meminst stack_alloc_inst main_inst argc argv r,
      Event.wasmjit_emscripten_invoke_main meminst stack_alloc_inst main_inst argc argv r ∈
        (main env args).trace →
      main_inst ≠ 0 ∧ stack_alloc_inst ≠ 0 ∧ meminst ≠ 0 ∧
      ∃ module modules module_inst,
        Event.wasmjit_instantiate_emscripten_runtime (some modules) ∈ (main env args).trace ∧
        (∃ nm ∈ modules, nm.name = "env" ∧ nm.module = find_env modules) ∧
        find_env modules ≠ 0 ∧
        Event.wasmjit_instantiate module modules module_inst ∈ (main env args).trace ∧
        module_inst ≠ 0 ∧
        before (Event.wasmjit_get_export module_inst "_main" DescType.IMPORT_DESC_TYPE_FUNC
            main_inst)
          (Event.wasmjit_emscripten_invoke_main meminst stack_alloc_inst main_inst argc argv r)
          (main env args).trace ∧
        before (Event.wasmjit_get_export module_inst "stackAlloc"
            DescType.IMPORT_DESC_TYPE_FUNC stack_alloc_inst)
          (Event.wasmjit_emscripten_invoke_main meminst stack_alloc_inst main_inst argc argv r)
          (main env args).trace ∧
        before (Event.wasmjit_get_export (find_env modules) "memory"
            DescType.IMPORT_DESC_TYPE_MEM meminst)
          (Event.wasmjit_emscripten_invoke_main meminst stack_alloc_inst main_inst argc argv r)
          (main env args).trace) ∧
    (∀ module_inst name type,
      Event.wasmjit_get_export module_inst name type 0 ∈ (main env args).trace →
      (main env args).ret = some (-1) ∧ ∀ e ∈ (main env args).trace, e.is_invoke = false) ∧
    (∀ modules,
      Event.wasmjit_instantiate_emscripten_runtime (some modules) ∈ (main env args).trace →
      (∀ nm ∈ modules, nm.name ≠ "env") →
      (main env args).ret = some (-1) ∧
      ∀ e ∈ (main env args).trace, e.is_invoke = false ∧ e.is_instantiate = false) :=
  ⟨fun meminst stack_alloc_inst main_inst argc argv r h =>
     invoke_after_lookups env args meminst stack_alloc_inst main_inst argc argv r h,
   fun module_inst name type h => lookup_failure_returns env args module_inst name type h,
   fun modules h hn => no_env_returns env args modules h (find_env_eq_zero modules hn)⟩

/-- Witness of C4: a run that invokes the entry point, a run whose lookup of
`stackAlloc` fails, and a run without a host module named `env`. -/
theorem main_invoke_only_after_lookups_witness :
    (Event.wasmjit_emscripten_invoke_main 70 70 70 1 ["a.wasm"] 0 ∈
        (main (demo_env (some add_module) (some demo_modules) 60 (fun _ _ _ => 70))
          demo_args).trace ∧ (70 : Nat) ≠ 0) ∧
    (Event.wasmjit_get_export 60 "stackAlloc" DescType.IMPORT_DESC_TYPE_FUNC 0 ∈
        (main (demo_env (some add_module) (some demo_modules) 60
          (fun _ name _ => if name = "stackAlloc" then 0 else 70)) demo_args).trace ∧
      (main (demo_env (some add_module) (some demo_modules) 60
          (fun _ name _ => if name = "stackAlloc" then 0 else 70)) demo_args).ret =
        some (-1)) ∧
    (Event.wasmjit_instantiate_emscripten_runtime (some [{ name := "wasi", module := 50 }]) ∈
        (main (demo_env (some add_module) (some [{ name := "wasi", module := 50 }]) 60
          (fun _ _ _ => 70)) demo_args).trace ∧
      (main (demo_env (some add_module) (some [{ name := "wasi", module := 50 }]) 60
          (fun _ _ _ => 70)) demo_args).ret = some (-1)) :=
  ⟨⟨by decide,
    ((main_invoke_only_after_lookups
      (demo_env (some add_module) (some demo_modules) 60 (fun _ _ _ => 70)) demo_args).1
      70 70 70 1 ["a.wasm"] 0 (by decide)).1⟩,
   ⟨by decide,
    ((main_invoke_only_after_lookups
      (demo_env (some add_module) (some demo_modules) 60
        (fun _ name _ => if name = "stackAlloc" then 0 else 70)) demo_args).2.1
      60 "stackAlloc" DescType.IMPORT_DESC_TYPE_FUNC (by decide)).1⟩,
   ⟨by decide,
    ((main_invoke_only_after_lookups
      (demo_env (some add_module) (some [{ name := "wasi", module := 50 }]) 60
        (fun _ _ _ => 70)) demo_args).2.2
      [{ name := "wasi", module := 50 }] (by decide) (by decide)).1⟩⟩

/-- C7: in dump mode the driver reads outside the declared bounds.  For a module
with one code body and no function declaration, index 0 is a code body index
but no index of the function section, and the dump stops at the read of
`typeidxs[0]`; for a module whose function declaration names type 5 of an empty
type section, the dump stops at the read of `types[5]`. -/
theorem dump_reads_out_of_bounds :
    (0 < codes_without_functions.code_section.n_codes ∧
      ¬ 0 < codes_without_functions.function_section.n_typeidxs ∧
      dump_loop codes_without_functions
        (List.range codes_without_functions.code_section.n_codes) = ([], false)) ∧
    (0 < type_index_out_of_range.code_section.n_codes ∧
      type_index_out_of_range.function_section.typeidxs[0]? = some 5 ∧
      ¬ 5 < type_index_out_of_range.type_section.n_types ∧
      dump_loop type_index_out_of_range
        (List.range type_index_out_of_range.code_section.n_codes) =
        ([Event.dump_locals 0 []], false)) := by
  decide

/-- C9: with `-d`, and also with `-d -o`, a run of `main` on a decoded module
with one code body and no function declaration has no return value: the dump
reads `typeidxs[0]` outside the function section.  The same module without
`-d` is rejected by the count comparison with -1. -/
theorem main_dump_out_of_bounds :
    (main (demo_env (some codes_without_functions) (some demo_modules) 60 (fun _ _ _ => 70))
      { opts := ['d'], rest := ["a.wasm"] }).ret = none ∧
    (main (demo_env (some codes_without_functions) (some demo_modules) 60 (fun _ _ _ => 70))
      { opts := ['d', 'o'], rest := ["a.wasm"] }).ret = none ∧
    (main (demo_env (some codes_without_functions) (some demo_modules) 60 (fun _ _ _ => 70))
      { opts := ['o'], rest := ["a.wasm"] }).ret = some (-1) := by
  decide

/-! ## The claims about the engine -/

/-- C5: invoking the exported `add(i32, i32) -> i32` on the bit patterns of two
integers returns, without a trap, the bit pattern of their sum modulo `2 ^ 32`,
which read as a signed integer is the sum wrapped into the 32-bit range; on
(2, 3) it returns 5 and on (2147483647, 1) it returns -2147483648. -/
theorem add_export_wraps (a b : Int) :
    call_export add_module "add" [Value.i32 (i32_of_int a), Value.i32 (i32_of_int b)] =
      some (Outcome.returned [Value.i32 (((a + b) % 2 ^ 32).toNat)]) ∧
    i32_to_int (((a + b) % 2 ^ 32).toNat) = (a + b + 2 ^ 31) % 2 ^ 32 - 2 ^ 31 ∧
    call_export add_module "add" [Value.i32 (i32_of_int 2), Value.i32 (i32_of_int 3)] =
      some (Outcome.returned [Value.i32 (i32_of_int 5)]) ∧
    call_export add_module "add"
        [Value.i32 (i32_of_int 2147483647), Value.i32 (i32_of_int 1)] =
      some (Outcome.returned [Value.i32 (i32_of_int (-2147483648))]) := by
  refine ⟨?_, ?_, by decide, by decide⟩
  · simp [call_export, instantiate, add_module, link_funcs, Instance.get_export, invoke,
      Value.valtype, zero_locals, exec, step]
    exact i32_of_int_add a b
  · unfold i32_to_int
    split_ifs with h <;> omega

/-- The little-endian encoding has exactly the requested number of bytes. -/
theorem bytes_le_length (width n : Nat) : (bytes_le width n).length = width := by
  induction width generalizing n with
  | zero => rfl
  | succ w ih => simp [bytes_le, ih]

/-- Decoding the little-endian encoding of a number gives the number modulo
`256 ^ width`. -/
theorem nat_of_bytes_le_bytes_le (width n : Nat) :
    nat_of_bytes_le (bytes_le width n) = n % 256 ^ width := by
  induction width generalizing n with
  | zero => simp [bytes_le, nat_of_bytes_le, Nat.mod_one]
  | succ w ih =>
    simp only [bytes_le, nat_of_bytes_le, ih, Nat.mod_mod]
    rw [pow_succ', Nat.mod_mul]

/-- A store that succeeds keeps the size of the memory, puts exactly the given
bytes at the effective address, and leaves every other byte as it was. -/
theorem mem_store_result (mem mem2 : MemInst) (offset base : Nat) (bs : List Nat)
    (h : mem_store mem offset base bs = some mem2) :
    mem2.size = mem.size ∧
    mem_load mem2 offset base bs.length = some bs ∧
    ∀ j, j < offset + base ∨ offset + base + bs.length ≤ j → mem2.data[j]? = mem.data[j]? := by
  simp only [mem_store, effective_address] at h
  split_ifs at h with hb
  simp only [Option.some.injEq] at h
  subst h
  unfold MemInst.size at hb
  have hlen : (List.take (offset + base) mem.data).length = offset + base := by
    simp; omega
  refine ⟨?_, ?_, ?_⟩
  · simp [MemInst.size]
    omega
  · have hsz : offset + base + bs.length ≤
        (List.take (offset + base) mem.data ++ bs ++
          List.drop (offset + base + bs.length) mem.data).length := by
      simp; omega
    simp only [mem_load, effective_address, MemInst.size, hsz, if_true, Option.some.injEq]
    rw [List.append_assoc, List.drop_append_of_le_length (by omega)]
    rw [List.drop_of_length_le (by omega)]
    simp
  · intro j hj
    rcases hj with hj | hj
    · rw [List.append_assoc, List.getElem?_append_left (by omega)]
      simp [List.getElem?_take, hj]
    · rw [List.getElem?_append_right (by simp; omega)]
      simp only [List.length_append, hlen]
      simp only [List.getElem?_drop]
      congr 1
      omega

/-- A store is refused exactly when its bytes do not fit. -/
theorem mem_store_eq_none_iff (mem : MemInst) (offset base : Nat) (bs : List Nat) :
    mem_store mem offset base bs = none ↔ mem.size < offset + base + bs.length := by
  simp only [mem_store, effective_address]
  split_ifs with h <;> simp [h]; omega

/-- Storing the encoding of a value and loading the same width at the same
address gives the encoding back, in a memory of unchanged size. -/
theorem store_then_load (mem mem2 : MemInst) (offset base width v : Nat)
    (h : mem_store mem offset base (bytes_le width v) = some mem2) :
    mem2.size = mem.size ∧ mem_load mem2 offset base width = some (bytes_le width v) := by
  have hr := mem_store_result mem mem2 offset base (bytes_le width v) h
  rw [bytes_le_length] at hr
  exact ⟨hr.1, hr.2.1⟩

/-- C6: a memory access of `width` bytes at static offset `offset` and runtime
base `base`, against a memory of `mem.size` bytes, succeeds if and only if
`offset + base + width ≤ mem.size` and otherwise traps.  This holds for the
load and the store of any width, and for each memory instruction:
`i32.load`, `i32.load8_u`, `i32.store` and `i32.store8` trap with an
out-of-bounds reason exactly when their four bytes, or their one byte, do not
fit, and complete exactly when they fit.  Nothing is clamped: a load that
succeeds delivers exactly the `width` bytes at the effective address and leaves
the memory as it is, a store that succeeds writes exactly its bytes there,
changes no other byte and keeps the size. -/
theorem mem_access_in_bounds_iff (mem : MemInst) (offset base width : Nat) (bs : List Nat)
    (v : Nat) (locals rest : List Value) :
    ((mem_load mem offset base width).isSome ↔ offset + base + width ≤ mem.size) ∧
    (mem_load mem offset base width = none ↔ mem.size < offset + base + width) ∧
    (∀ out, mem_load mem offset base width = some out →
      out.length = width ∧ ∀ k, k < width → out[k]? = mem.data[offset + base + k]?) ∧
    ((mem_store mem offset base bs).isSome ↔ offset + base + bs.length ≤ mem.size) ∧
    (mem_store mem offset base bs = none ↔ mem.size < offset + base + bs.length) ∧
    (∀ mem2, mem_store mem offset base bs = some mem2 →
      mem2.size = mem.size ∧
      mem_load mem2 offset base bs.length = some bs ∧
      ∀ j, j < offset + base ∨ offset + base + bs.length ≤ j →
        mem2.data[j]? = mem.data[j]?) ∧
    (step (Instr.i32_load offset) { locals := locals, stack := Value.i32 base :: rest } mem =
        .error (Stop.trap TrapReason.out_of_bounds_memory_access) ↔
      mem.size < offset + base + 4) ∧
    (step (Instr.i32_load offset) { locals := locals, stack := Value.i32 base :: rest } mem =
        .ok ({ locals := locals,
               stack := Value.i32 (nat_of_bytes_le ((mem.data.drop (offset + base)).take 4))
                 :: rest }, mem) ↔
      offset + base + 4 ≤ mem.size) ∧
    (step (Instr.i32_load8_u offset) { locals := locals, stack := Value.i32 base :: rest } mem =
        .error (Stop.trap TrapReason.out_of_bounds_memory_access) ↔
      mem.size < offset + base + 1) ∧
    (step (Instr.i32_load8_u offset) { locals := locals, stack := Value.i32 base :: rest } mem =
        .ok ({ locals := locals,
               stack := Value.i32 (nat_of_bytes_le ((mem.data.drop (offset + base)).take 1))
                 :: rest }, mem) ↔
      offset + base + 1 ≤ mem.size) ∧
    (step (Instr.i32_store offset)
        { locals := locals, stack := Value.i32 v :: Value.i32 base :: rest } mem =
        .error (Stop.trap TrapReason.out_of_bounds_memory_access) ↔
      mem.size < offset + base + 4) ∧
    ((∃ mem2, step (Instr.i32_store offset)
          { locals := locals, stack := Value.i32 v :: Value.i32 base :: rest } mem =
          .ok ({ locals := locals, stack := rest }, mem2) ∧
        mem2.size = mem.size ∧
        step (Instr.i32_load offset) { locals := locals, stack := Value.i32 base :: rest } mem2 =
          .ok ({ locals := locals, stack := Value.i32 (v % 2 ^ 32) :: rest }, mem2)) ↔
      offset + base + 4 ≤ mem.size) ∧
    (step (Instr.i32_store8 offset)
        { locals := locals, stack := Value.i32 v :: Value.i32 base :: rest } mem =
        .error (Stop.trap TrapReason.out_of_bounds_memory_access) ↔
      mem.size < offset + base + 1) ∧
    ((∃ mem2, step (Instr.i32_store8 offset)
          { locals := locals, stack := Value.i32 v :: Value.i32 base :: rest } mem =
          .ok ({ locals := locals, stack := rest }, mem2) ∧
        mem2.size = mem.size ∧
        step (Instr.i32_load8_u offset) { locals := locals, stack := Value.i32 base :: rest }
            mem2 =
          .ok ({ locals := locals, stack := Value.i32 (v % 256) :: rest }, mem2)) ↔
      offset + base + 1 ≤ mem.size) := by
  refine ⟨?_, ?_, ?_, ?_, ?_, ?_, ?_, ?_, ?_, ?_, ?_, ?_, ?_, ?_⟩
  · simp only [mem_load, effective_address]
    split_ifs with h <;> simp [h]
  · simp only [mem_load, effective_address]
    split_ifs with h <;> simp [h]; omega
  · intro out hout
    simp only [mem_load, effective_address] at hout
    split_ifs at hout with h
    simp at hout
    subst hout
    unfold MemInst.size at h
    constructor
    · simp; omega
    · intro k hk
      simp [List.getElem?_take, hk]
  · simp only [mem_store, effective_address]
    split_ifs with h <;> simp [h]
  · simp only [mem_store, effective_address]
    split_ifs with h <;> simp [h]; omega
  · intro mem2 hst
    exact mem_store_result mem mem2 offset base bs hst
  · simp only [step, mem_load, effective_address]
    split_ifs with h
    · simp; omega
    · simp; omega
  · simp only [step, mem_load, effective_address]
    split_ifs with h
    · simp; omega
    · simp; omega
  · simp only [step, mem_load, effective_address]
    split_ifs with h
    · simp; omega
    · simp; omega
  · simp only [step, mem_load, effective_address]
    split_ifs with h
    · simp; omega
    · simp; omega
  · simp only [step]
    cases hs : mem_store mem offset base (bytes_le 4 v) with
    | none =>
      have := (mem_store_eq_none_iff mem offset base (bytes_le 4 v)).mp hs
      rw [bytes_le_length] at this
      simp [this]
    | some mem2 =>
      have hn : mem_store mem offset base (bytes_le 4 v) ≠ none := by simp [hs]
      rw [Ne, mem_store_eq_none_iff, bytes_le_length] at hn
      simp
      omega
  · simp only [step]
    cases hs : mem_store mem offset base (bytes_le 4 v) with
    | none =>
      have := (mem_store_eq_none_iff mem offset base (bytes_le 4 v)).mp hs
      rw [bytes_le_length] at this
      simp
      omega
    | some mem2 =>
      have hn : mem_store mem offset base (bytes_le 4 v) ≠ none := by simp [hs]
      rw [Ne, mem_store_eq_none_iff, bytes_le_length] at hn
      have hl := store_then_load mem mem2 offset base 4 v hs
      constructor
      · intro _
        omega
      · intro _
        refine ⟨mem2, rfl, hl.1, ?_⟩
        simp only [hl.2, nat_of_bytes_le_bytes_le]
        norm_num
  · simp only [step]
    cases hs : mem_store mem offset base (bytes_le 1 v) with
    | none =>
      have := (mem_store_eq_none_iff mem offset base (bytes_le 1 v)).mp hs
      rw [bytes_le_length] at this
      simp [this]
    | some mem2 =>
      have hn : mem_store mem offset base (bytes_le 1 v) ≠ none := by simp [hs]
      rw [Ne, mem_store_eq_none_iff, bytes_le_length] at hn
      simp
      omega
  · simp only [step]
    cases hs : mem_store mem offset base (bytes_le 1 v) with
    | none =>
      have := (mem_store_eq_none_iff mem offset base (bytes_le 1 v)).mp hs
      rw [bytes_le_length] at this
      simp
      omega
    | some mem2 =>
      have hn : mem_store mem offset base (bytes_le 1 v) ≠ none := by simp [hs]
      rw [Ne, mem_store_eq_none_iff, bytes_le_length] at hn
      have hl := store_then_load mem mem2 offset base 1 v hs
      constructor
      · intro _
        omega
      · intro _
        refine ⟨mem2, rfl, hl.1, ?_⟩
        simp only [hl.2, nat_of_bytes_le_bytes_le]
        norm_num

/-- Witness of C6: in a memory of eight bytes, a load of four bytes at address 4
succeeds and one at address 5 is refused, a store of four bytes at address 4
succeeds and keeps the size, and `i32.store` at address 5 traps. -/
theorem mem_access_in_bounds_iff_witness :
    mem_load demo_mem 1 3 4 = some [5, 6, 7, 8] ∧
    ([5, 6, 7, 8] : List Nat).length = 4 ∧
    mem_load demo_mem 2 3 4 = none ∧
    (mem_store demo_mem 1 3 [9, 9, 9, 9]).isSome = true ∧
    mem_store demo_mem 1 3 [9, 9, 9, 9] =
      some { data := [1, 2, 3, 4, 9, 9, 9, 9], max_pages := 1 } ∧
    MemInst.size { data := [1, 2, 3, 4, 9, 9, 9, 9], max_pages := 1 } = demo_mem.size ∧
    step (Instr.i32_store 2) { locals := [], stack := [Value.i32 7, Value.i32 3] } demo_mem =
      .error (Stop.trap TrapReason.out_of_bounds_memory_access) :=
  ⟨by decide,
   ((mem_access_in_bounds_iff demo_mem 1 3 4 [9, 9, 9, 9] 7 [] []).2.2.1 [5, 6, 7, 8]
     (by decide)).1,
   (mem_access_in_bounds_iff demo_mem 2 3 4 [] 7 [] []).2.1.mpr (by decide),
   (mem_access_in_bounds_iff demo_mem 1 3 4 [9, 9, 9, 9] 7 [] []).2.2.2.1.mpr (by decide),
   by decide,
   ((mem_access_in_bounds_iff demo_mem 1 3 4 [9, 9, 9, 9] 7 [] []).2.2.2.2.2.1
     { data := [1, 2, 3, 4, 9, 9, 9, 9], max_pages := 1 } (by decide)).1,
   (mem_access_in_bounds_iff demo_mem 2 3 4 [] 7 [] []).2.2.2.2.2.2.2.2.2.2.1.mpr
     (by decide)⟩

end Wasmjit
